import Mathlib

/-!
Verification of the trade-tracking repository's core against its
natural-language specification.

The development shallowly embeds the TypeScript sources:
`src/server/src/sheets.ts` (row mapper, capacity manager, slot finder),
`src/server/src/index.ts` (manual fallback parser, summarizer, chat
orchestrator), `src/api/chat.ts` (the serverless variant of the same
pipeline) and the agent module (intent resolver, reply composer).

Conventions of the embedding:
* JavaScript strings are Lean `String`s; character-level operations are
  defined over `List Char` and lifted.
* JavaScript numbers are modelled exactly: finite values as `ℚ` and the
  full `number` domain (including `NaN`, infinities, and an `undefined`
  slipping through a typed field) as `JSNum`.  Floating-point rounding of
  finite arithmetic is abstracted to exact rational arithmetic.
* External round-trips (Google Sheets, the completion service, the search
  service, `new Date` parsing) are parameters: each handler takes an
  environment recording the outcome of every external call it makes.
* Fallible code returns `Option`/`Except`; nothing in the model throws.
-/

/-! ## Character-level text utilities (JS string semantics) -/

/-- Whitespace characters recognised by JavaScript `trim` / `\s`
(restricted to the ASCII range used by this code base). -/
def isWsChar (c : Char) : Bool :=
  c = ' ' || c = '\t' || c = '\n' || c = '\r' || c = '\x0b' || c = '\x0c'

/-- Drop leading whitespace. -/
def trimLChars (l : List Char) : List Char := l.dropWhile isWsChar

/-- Drop trailing whitespace. -/
def trimRChars (l : List Char) : List Char :=
  (l.reverse.dropWhile isWsChar).reverse

/-- JS `String.prototype.trim`. -/
def trimChars (l : List Char) : List Char := trimLChars (trimRChars l)

/-- `trim` lifted to `String`. -/
def jsTrim (s : String) : String := ⟨trimChars s.data⟩

/-- Does `pat` occur at the head of `l`? -/
def listStartsWith : List Char → List Char → Bool
  | [], _ => true
  | _ :: _, [] => false
  | a :: as, b :: bs => a = b && listStartsWith as bs

/-- Does `pat` occur anywhere inside `l`?  (JS `String.prototype.includes`;
`pat = []` matches everywhere, as in JS.) -/
def listHasSub (pat : List Char) : List Char → Bool
  | [] => listStartsWith pat []
  | l@(_ :: rest) => listStartsWith pat l || listHasSub pat rest

/-- JS `a.includes(b)`. -/
def containsSub (s pat : String) : Bool := listHasSub pat.data s.data

/-- JS `a.startsWith(b)`. -/
def startsWithStr (s pat : String) : Bool := listStartsWith pat.data s.data

/-- JS `toLowerCase` (ASCII, which is all this code base uses). -/
def toLowerStr (s : String) : String := ⟨s.data.map Char.toLower⟩

/-- JS `toUpperCase` (ASCII). -/
def toUpperStr (s : String) : String := ⟨s.data.map Char.toUpper⟩

/-! ## JS numbers -/

/-- The JavaScript `number` domain as used by this code, plus `undefined`
(a value of a typed `number` field can be `undefined` when the caller
bypasses the type system; `Number.isFinite undefined = false`).  Finite
values are exact rationals. -/
inductive JSNum
  | fin (q : ℚ)
  | nan
  | inf
  | negInf
  | undef
deriving DecidableEq, Repr

/-- `Number.isFinite`. -/
def JSNum.isFiniteB : JSNum → Bool
  | .fin _ => true
  | _ => false

/-- JS multiplication on the modelled number domain (exact on finite
values; IEEE special-value rules otherwise, with `undefined` coerced to
`NaN`). -/
def jsMul : JSNum → JSNum → JSNum
  | .fin a, .fin b => .fin (a * b)
  | .nan, _ => .nan
  | _, .nan => .nan
  | .undef, _ => .nan
  | _, .undef => .nan
  | .inf, .inf => .inf
  | .inf, .negInf => .negInf
  | .negInf, .inf => .negInf
  | .negInf, .negInf => .inf
  | .inf, .fin b => if 0 < b then .inf else if b < 0 then .negInf else .nan
  | .fin a, .inf => if 0 < a then .inf else if a < 0 then .negInf else .nan
  | .negInf, .fin b => if 0 < b then .negInf else if b < 0 then .inf else .nan
  | .fin a, .negInf => if 0 < a then .negInf else if a < 0 then .inf else .nan

/-- Decimal rendering of an integer. -/
def intStr (i : Int) : String := toString i

/-- Rendering of a finite JS number.  JavaScript prints the shortest
round-tripping decimal; the model keeps integers in the JS format and
renders non-integral rationals as `num/den`.  The claims never depend on
the decimal shape of a non-integral number, only on the rendering being a
fixed injective function. -/
def ratStr (q : ℚ) : String :=
  if q.den = 1 then intStr q.num else intStr q.num ++ "/" ++ toString q.den

/-- JS `String(n)` on the modelled number domain. -/
def JSNum.render : JSNum → String
  | .fin q => ratStr q
  | .nan => "NaN"
  | .inf => "Infinity"
  | .negInf => "-Infinity"
  | .undef => "undefined"

/-! ## The capacity manager (C2)

`ensureSheetCapacity` exists twice in the repository.  Both versions read
the current grid size and either return without a write or issue exactly
one resize request; the pure content is the resize plan, so each version
is embedded as a function from the current grid size and the minimums to
`Option (rows × columns)` — `none` meaning "no resize request issued".
-/

/-- `ensureSheetCapacity` of `src/server/src/sheets.ts` (lines 240–288):
`targetRows = Math.max(rowCount, minRows)`,
`targetColumns = Math.max(columnCount, minColumns)`; no-op when both
targets equal the current counts. -/
def ensureCapacityPlanServer (rowCount columnCount minRows minColumns : Nat) :
    Option (Nat × Nat) :=
  let targetRows := max rowCount minRows
  let targetColumns := max columnCount minColumns
  if targetRows = rowCount ∧ targetColumns = columnCount then none
  else some (targetRows, targetColumns)

/-- `ensureSheetCapacity` of `src/api/chat.ts` (lines 142–181):
identical except `targetRows = Math.max(rowCount, minRows + 10)` ("Add
buffer"). -/
def ensureCapacityPlanApi (rowCount columnCount minRows minColumns : Nat) :
    Option (Nat × Nat) :=
  let targetRows := max rowCount (minRows + 10)
  let targetColumns := max columnCount minColumns
  if targetRows = rowCount ∧ targetColumns = columnCount then none
  else some (targetRows, targetColumns)

/-! ## The slot finder (C4) -/

/-- JS `Array.prototype.findIndex`, with `none` for `-1`. -/
def jsFindIndex {α : Type} (p : α → Bool) : List α → Option Nat
  | [] => none
  | x :: xs => if p x then some 0 else (jsFindIndex p xs).map (· + 1)

/-- A sheet cell is blank when it trims to the empty string; a row is
blank when no cell is non-blank (`!existingRow?.some(cell =>
String(cell ?? "").trim())`, `src/server/src/sheets.ts` line 317). -/
def isBlankRowB (row : List String) : Bool :=
  !(row.any (fun cell => !(jsTrim cell == "")))

/-- Target-row computation of `appendTradeRow`
(`src/server/src/sheets.ts` lines 316–320 and `src/api/chat.ts` lines
229–232): the first blank existing row, else the row after the last
existing row. -/
def findTargetRow (existingRows : List (List String)) (firstDataRow : Nat) : Nat :=
  firstDataRow +
    (match jsFindIndex isBlankRowB existingRows with
     | some i => i
     | none => existingRows.length)

theorem jsFindIndex_eq_none {α : Type} (p : α → Bool) (l : List α)
    (h : ∀ x ∈ l, p x = false) : jsFindIndex p l = none := by
  induction l with
  | nil => rfl
  | cons x xs ih =>
    simp only [jsFindIndex, h x (by simp)]
    simp [ih (fun y hy => h y (by simp [hy]))]

theorem jsFindIndex_eq_some {α : Type} (p : α → Bool) (d : α) :
    ∀ (l : List α) (i : Nat), i < l.length →
      p (l.getD i d) = true →
      (∀ j, j < i → p (l.getD j d) = false) →
      jsFindIndex p l = some i := by
  intro l
  induction l with
  | nil => intro i hi; simp at hi
  | cons x xs ih =>
    intro i hi hp hfirst
    cases i with
    | zero =>
      simp only [List.getD_cons_zero] at hp
      simp [jsFindIndex, hp]
    | succ i =>
      have hx : p x = false := by
        have := hfirst 0 (by omega)
        simpa using this
      simp only [jsFindIndex, hx]
      have := ih i (by simpa using hi) (by simpa using hp)
        (fun j hj => by
          have := hfirst (j + 1) (by omega)
          simpa using this)
      simp [this]

/-! ## Claim theorems: C2 and C4 -/

/-- C2 (counterexample): the claim states that the row count is raised to
`max(currentRows, minRows + 10)` and that meeting the minimums means no
resize.  The server implementation resizes `(rows 5, cols 5)` with
minimums `(7, 5)` to `(7, 5)`, not to `(17, 5)`; and the serverless
implementation resizes `(rows 12, cols 5)` with minimums `(10, 5)` even
though both current counts meet the minimums. -/
theorem C2_counterexample :
    ensureCapacityPlanServer 5 5 7 5 = some (7, 5) ∧
    some ((7 : Nat), (5 : Nat)) ≠ some ((17 : Nat), (5 : Nat)) ∧
    ensureCapacityPlanApi 12 5 10 5 = some (20, 5) := by
  refine ⟨rfl, by decide, rfl⟩

/-- C2 (amended): the serverless `ensureSheetCapacity` issues no resize
iff the current row count is at least `minRows + 10` and the current
column count meets `minColumns`, and otherwise resizes to
`(max(currentRows, minRows + 10), max(currentColumns, minColumns))`;
the server `ensureSheetCapacity` applies no buffer: it issues no resize
iff both current counts meet the minimums, and otherwise resizes to
`(max(currentRows, minRows), max(currentColumns, minColumns))`. -/
theorem C2_ensureCapacity_amended (rows cols minRows minCols : Nat) :
    (ensureCapacityPlanServer rows cols minRows minCols = none ↔
      (minRows ≤ rows ∧ minCols ≤ cols)) ∧
    (∀ t, ensureCapacityPlanServer rows cols minRows minCols = some t →
      t = (max rows minRows, max cols minCols)) ∧
    (ensureCapacityPlanApi rows cols minRows minCols = none ↔
      (minRows + 10 ≤ rows ∧ minCols ≤ cols)) ∧
    (∀ t, ensureCapacityPlanApi rows cols minRows minCols = some t →
      t = (max rows (minRows + 10), max cols minCols)) := by
  unfold ensureCapacityPlanServer ensureCapacityPlanApi
  simp only [Nat.max_def]
  refine ⟨?_, ?_, ?_, ?_⟩ <;> split_ifs <;>
    simp_all <;> omega

/-- C2 (witness): the amended theorem evaluated at concrete grids. -/
theorem C2_ensureCapacity_amended_witness :
    (((7 : Nat), (5 : Nat)) = (max 5 7, max 5 5)) ∧
    ensureCapacityPlanApi 100 26 8 26 = none :=
  ⟨(C2_ensureCapacity_amended 5 5 7 5).2.1 (7, 5) (by decide),
   (C2_ensureCapacity_amended 100 26 8 26).2.2.1.mpr (by omega)⟩

/-- C4: `findTargetRow` returns the row number of the first all-blank
existing row; when no existing row is blank it returns the row after the
last existing row; on all-blank rows it returns `firstDataRow`, and with
no blank rows it returns `firstDataRow + length existingRows`. -/
theorem C4_findTargetRow_spec (rows : List (List String)) (firstDataRow : Nat) :
    ((∀ r ∈ rows, isBlankRowB r = false) →
      findTargetRow rows firstDataRow = firstDataRow + rows.length) ∧
    (∀ i, i < rows.length → isBlankRowB (rows.getD i []) = true →
      (∀ j, j < i → isBlankRowB (rows.getD j []) = false) →
      findTargetRow rows firstDataRow = firstDataRow + i) ∧
    ((∀ r ∈ rows, isBlankRowB r = true) →
      findTargetRow rows firstDataRow = firstDataRow) := by
  refine ⟨?_, ?_, ?_⟩
  · intro hall
    unfold findTargetRow
    rw [jsFindIndex_eq_none _ _ hall]
  · intro i hi hblank hfirst
    unfold findTargetRow
    rw [jsFindIndex_eq_some isBlankRowB [] rows i hi hblank hfirst]
  · intro hall
    unfold findTargetRow
    cases rows with
    | nil => simp [jsFindIndex]
    | cons r rs => simp [jsFindIndex, hall r (by simp)]

/-- C4 (witness): a blank row after one non-blank row is reused; with no
blank rows the append row is returned. -/
theorem C4_findTargetRow_witness :
    findTargetRow [["x"], ["", " "], ["y"]] 8 = 8 + 1 ∧
    findTargetRow [["x"], ["y"]] 8 = 8 + 2 := by
  constructor
  · exact (C4_findTargetRow_spec [["x"], ["", " "], ["y"]] 8).2.1 1 (by decide)
      (by decide)
      (fun j hj => by
        have hj0 : j = 0 := by omega
        subst hj0
        decide)
  · exact (C4_findTargetRow_spec [["x"], ["y"]] 8).1 (by decide)

/-! ## The row mapper (C1, C5)

`buildRow` of `src/server/src/sheets.ts` lines 127–201 (the serverless
copy in `src/api/chat.ts` lines 183–214 is identical except that it omits
the transaction-type validation, which — as proved below — can never fire
for a well-typed `TradeInput` anyway).
-/

/-- The `transactionType` field of `TradeInput` (`"buy" | "sell"`). -/
inductive Side
  | buy
  | sell
deriving DecidableEq, Repr

/-- The runtime string of a `Side` value. -/
def sideStr : Side → String
  | .buy => "buy"
  | .sell => "sell"

/-- `VALID_TRANSACTION_TYPES`. -/
def VALID_TRANSACTION_TYPES : List String :=
  ["Buy", "Sell", "Dividend", "Split", "Return of capital",
   "Cost Base Adj.", "Reinvested capital gain distribution"]

/-- `DEFAULT_INVESTMENT_ACCOUNT`. -/
def DEFAULT_INVESTMENT_ACCOUNT : String := "Interactive Brokers (IBKR)"

/-- `normalizeTransactionType`: trim, then case-insensitively match
against the canonical vocabulary, falling back to the trimmed input. -/
def normalizeTransactionType (input : String) : String :=
  let trimmed := jsTrim input
  match VALID_TRANSACTION_TYPES.find?
      (fun v => toLowerStr v == toLowerStr trimmed) with
  | some v => v
  | none => trimmed

/-- `TradeLogConfig.columns`: logical field → header text.  Fields are
optional as in the serverless config type; `buildRow` skips a falsy
(absent or empty) header. -/
structure TradeLogColumns where
  date : Option String
  transactionType : Option String
  symbol : Option String
  quantity : Option String
  amountPerUnit : Option String
  totalAmount : Option String
  tradingFees : Option String
  investmentAccount : Option String
deriving DecidableEq, Repr

/-- `TradeLogConfig`. -/
structure TradeLogConfig where
  sheetName : String
  headerRow : Nat
  dataStartRow : Option Nat
  columns : TradeLogColumns
deriving DecidableEq, Repr

/-- The hardcoded config of `src/api/chat.ts` lines 50–64. -/
def chatConfig : TradeLogConfig :=
  { sheetName := "Trade Log"
    headerRow := 7
    dataStartRow := some 8
    columns :=
      { date := some "Date (MM-DD-YYYY)"
        transactionType := some "Transaction Type"
        symbol := some "Stock / ETF Symbol"
        quantity := some "Quantity of Units"
        amountPerUnit := some "Amount per unit"
        totalAmount := some "Total Amount (before trading fees)"
        tradingFees := some "Trading Fees"
        investmentAccount := some "Investment Account" } }

/-- `HeaderIndex`: header text → zero-based column, as an association
list (a JS record is a duplicate-free association list). -/
def HeaderIndex : Type := List (String × Nat)

/-- `headerIndex[header]`. -/
def lookupHeader (h : HeaderIndex) (k : String) : Option Nat :=
  ((List.find? (fun p => p.1 = k) h)).map (fun p => p.2)

/-- `TradeInput`: the typed trade record consumed by the row mapper.
Numeric fields carry the full JS `number` domain. -/
structure Trade where
  date : String
  transactionType : Side
  symbol : String
  quantity : JSNum
  amountPerUnit : JSNum
  totalAmount : JSNum
  tradingFees : JSNum
  investmentAccount : String
deriving DecidableEq, Repr

/-- An entry value before serialization (`string | number`). -/
inductive CellVal
  | s (v : String)
  | n (v : JSNum)
deriving DecidableEq, Repr

/-- `value === null || value === undefined ? "" : String(value)`. -/
def cellStr : CellVal → String
  | .s v => v
  | .n .undef => ""
  | .n v => v.render

/-- The `totalAmount` actually stored:
`Number.isFinite(trade.totalAmount) && trade.totalAmount !== 0
  ? trade.totalAmount : trade.quantity * trade.amountPerUnit`. -/
def storedTotalAmount (t : Trade) : JSNum :=
  if t.totalAmount.isFiniteB && !(t.totalAmount == .fin 0)
  then t.totalAmount
  else jsMul t.quantity t.amountPerUnit

/-- The `entries` array of `buildRow`: configured header (possibly
absent) paired with the serialized-to-be value, in source order. -/
def rowEntries (t : Trade) (c : TradeLogConfig) (normalizedType : String) :
    List (Option String × CellVal) :=
  [ (c.columns.date, .s t.date),
    (c.columns.transactionType, .s normalizedType),
    (c.columns.symbol, .s t.symbol),
    (c.columns.quantity, .n t.quantity),
    (c.columns.amountPerUnit, .n t.amountPerUnit),
    (c.columns.totalAmount, .n (storedTotalAmount t)),
    (c.columns.tradingFees, .n t.tradingFees),
    (c.columns.investmentAccount, .s DEFAULT_INVESTMENT_ACCOUNT) ]

/-- `header ? headerIndex[header] : undefined` — a falsy (absent or
empty) header yields no column. -/
def resolveEntryHeader (h : HeaderIndex) (oh : Option String) : Option Nat :=
  oh.bind (fun s => if s = "" then none else lookupHeader h s)

/-- The configured headers, in entry order. -/
def configuredHeaders (c : TradeLogConfig) : List (Option String) :=
  [c.columns.date, c.columns.transactionType, c.columns.symbol,
   c.columns.quantity, c.columns.amountPerUnit, c.columns.totalAmount,
   c.columns.tradingFees, c.columns.investmentAccount]

/-- The `indices` array: columns of the entries whose configured header
resolves in the live header index. -/
def resolvedIndices (h : HeaderIndex) (c : TradeLogConfig) : List Nat :=
  (configuredHeaders c).filterMap (resolveEntryHeader h)

/-- The fill loop of `buildRow`: `row[idx] = ...` for each resolving
entry, in order. -/
def fillRow (h : HeaderIndex) (entries : List (Option String × CellVal))
    (row : List String) : List String :=
  entries.foldl
    (fun row e =>
      match resolveEntryHeader h e.1 with
      | some idx => row.set idx (cellStr e.2)
      | none => row)
    row

/-- The two failure modes of `buildRow`. -/
inductive BuildError
  | invalidTransactionType
  | noMatchingHeaders
deriving DecidableEq, Repr

/-- `buildRow` (`src/server/src/sheets.ts` lines 127–201): validate the
normalized transaction type, resolve each configured field to a column,
fail with `noMatchingHeaders` when none resolves, and otherwise fill a
fresh row of length `max(resolved index) + 1`. -/
def buildRow (t : Trade) (h : HeaderIndex) (c : TradeLogConfig) :
    Except BuildError (List String) :=
  let normalizedType := normalizeTransactionType (sideStr t.transactionType)
  if ¬ (VALID_TRANSACTION_TYPES.contains normalizedType) then
    .error .invalidTransactionType
  else
    let entries := rowEntries t c normalizedType
    let indices := entries.filterMap (fun e => resolveEntryHeader h e.1)
    if indices.isEmpty then .error .noMatchingHeaders
    else
      let maxIndex := indices.foldl max 0
      .ok (fillRow h entries (List.replicate (maxIndex + 1) ""))

/-! ### Supporting lemmas for the row mapper -/

theorem normalizedSide_valid (s : Side) :
    VALID_TRANSACTION_TYPES.contains
      (normalizeTransactionType (sideStr s)) = true := by
  cases s <;> decide

theorem getD_set_same {α : Type} (d v : α) :
    ∀ (l : List α) (i : Nat), i < l.length → (l.set i v).getD i d = v := by
  intro l
  induction l with
  | nil => intro i hi; simp at hi
  | cons x xs ih =>
    intro i hi
    cases i with
    | zero => rfl
    | succ i => exact ih i (by simpa using hi)

theorem getD_set_other {α : Type} (d v : α) :
    ∀ (l : List α) (i j : Nat), i ≠ j → (l.set i v).getD j d = l.getD j d := by
  intro l
  induction l with
  | nil => intro i j _; simp
  | cons x xs ih =>
    intro i j hij
    cases i with
    | zero =>
      cases j with
      | zero => exact absurd rfl hij
      | succ j => rfl
    | succ i =>
      cases j with
      | zero => rfl
      | succ j => exact ih i j (by omega)

theorem getD_replicate {α : Type} (d : α) :
    ∀ (n j : Nat), (List.replicate n d).getD j d = d := by
  intro n
  induction n with
  | zero => intro j; simp
  | succ n ih =>
    intro j
    cases j with
    | zero => rfl
    | succ j => exact ih j

theorem init_le_foldl_max : ∀ (l : List Nat) (init : Nat),
    init ≤ l.foldl max init := by
  intro l
  induction l with
  | nil => intro init; simp
  | cons x xs ih =>
    intro init
    calc init ≤ max init x := Nat.le_max_left _ _
    _ ≤ xs.foldl max (max init x) := ih _

theorem le_foldl_max_of_mem : ∀ (l : List Nat) (init a : Nat), a ∈ l →
    a ≤ l.foldl max init := by
  intro l
  induction l with
  | nil => intro init a ha; simp at ha
  | cons x xs ih =>
    intro init a ha
    rcases List.mem_cons.1 ha with h | h
    · subst h
      calc a ≤ max init a := Nat.le_max_right _ _
      _ ≤ xs.foldl max (max init a) := init_le_foldl_max _ _
    · exact ih _ a h

theorem fillRow_length (h : HeaderIndex) :
    ∀ (entries : List (Option String × CellVal)) (row : List String),
      (fillRow h entries row).length = row.length := by
  intro entries
  induction entries with
  | nil => intro row; rfl
  | cons e es ih =>
    intro row
    simp only [fillRow, List.foldl_cons]
    cases hres : resolveEntryHeader h e.1 with
    | none =>
      simpa [fillRow, hres] using ih row
    | some idx =>
      simp only [hres]
      have := ih (row.set idx (cellStr e.2))
      simpa [fillRow, hres, List.length_set] using this

theorem fillRow_getD_not_touched (h : HeaderIndex) (j : Nat) :
    ∀ (entries : List (Option String × CellVal)) (row : List String),
      (∀ e ∈ entries, resolveEntryHeader h e.1 ≠ some j) →
      (fillRow h entries row).getD j "" = row.getD j "" := by
  intro entries
  induction entries with
  | nil => intro row _; rfl
  | cons e es ih =>
    intro row hnone
    simp only [fillRow, List.foldl_cons]
    cases hres : resolveEntryHeader h e.1 with
    | none =>
      simpa [fillRow, hres] using ih row (fun e' he' => hnone e' (by simp [he']))
    | some idx =>
      have hidx : idx ≠ j := by
        intro hc
        exact hnone e (by simp) (by simp [hres, hc])
      simp only [hres]
      have := ih (row.set idx (cellStr e.2))
        (fun e' he' => hnone e' (by simp [he']))
      rw [show (List.foldl
          (fun row e =>
            match resolveEntryHeader h e.1 with
            | some idx => row.set idx (cellStr e.2)
            | none => row)
          (row.set idx (cellStr e.2)) es) = fillRow h es (row.set idx (cellStr e.2)) from rfl]
      rw [this, getD_set_other _ _ _ _ _ hidx]

theorem fillRow_getD_last (h : HeaderIndex)
    (pre post : List (Option String × CellVal)) (e : Option String × CellVal)
    (row : List String) (j : Nat)
    (he : resolveEntryHeader h e.1 = some j)
    (hpost : ∀ e' ∈ post, resolveEntryHeader h e'.1 ≠ some j)
    (hj : j < row.length) :
    (fillRow h (pre ++ e :: post) row).getD j "" = cellStr e.2 := by
  unfold fillRow
  rw [List.foldl_append, List.foldl_cons, he]
  have hlen : j < (fillRow h pre row).length := by
    rw [fillRow_length]
    exact hj
  have := fillRow_getD_not_touched h j post
    ((fillRow h pre row).set j (cellStr e.2)) hpost
  rw [show (List.foldl
      (fun row e =>
        match resolveEntryHeader h e.1 with
        | some idx => row.set idx (cellStr e.2)
        | none => row)
      row pre) = fillRow h pre row from rfl]
  rw [show (List.foldl
      (fun row e =>
        match resolveEntryHeader h e.1 with
        | some idx => row.set idx (cellStr e.2)
        | none => row)
      ((fillRow h pre row).set j (cellStr e.2)) post) =
      fillRow h post ((fillRow h pre row).set j (cellStr e.2)) from rfl]
  rw [this, getD_set_same _ _ _ _ hlen]

theorem rowEntries_indices (t : Trade) (h : HeaderIndex) (c : TradeLogConfig)
    (nt : String) :
    (rowEntries t c nt).filterMap (fun e => resolveEntryHeader h e.1) =
      resolvedIndices h c := rfl

/-- C1: `buildRow` fails with `NoMatchingHeaders` iff zero configured
fields resolve to a column, and this is the only fatal condition (the
transaction-type validation of the server copy can never fire for a
typed `"buy" | "sell"` side); on success the row has length exactly
`max(resolved column index) + 1`, with the empty string at every
position not filled by a resolved field. -/
theorem C1_buildRow_spec (t : Trade) (h : HeaderIndex) (c : TradeLogConfig) :
    (buildRow t h c = .error .noMatchingHeaders ↔ resolvedIndices h c = []) ∧
    (∀ e, buildRow t h c = .error e → e = .noMatchingHeaders) ∧
    (∀ row, buildRow t h c = .ok row →
      row.length = (resolvedIndices h c).foldl max 0 + 1 ∧
      ∀ j, j ∉ resolvedIndices h c → row.getD j "" = "") := by
  have hvalid := normalizedSide_valid t.transactionType
  unfold buildRow
  simp only [hvalid, not_true, if_false, Bool.not_eq_true]
  rw [rowEntries_indices t h c]
  by_cases hempty : resolvedIndices h c = []
  · simp [hempty]
  · have : (resolvedIndices h c).isEmpty = false := by
      simpa [List.isEmpty_iff] using hempty
    simp only [this, Bool.false_eq_true, if_false]
    refine ⟨by simp [hempty], by simp, ?_⟩
    intro row hrow
    simp only [Except.ok.injEq] at hrow
    subst hrow
    constructor
    · rw [fillRow_length, List.length_replicate]
    · intro j hj
      rw [fillRow_getD_not_touched, getD_replicate]
      intro e he hres
      exact hj (by
        rw [← rowEntries_indices t h c]
        exact List.mem_filterMap.2 ⟨e, he, hres⟩)

/-- C1 (witness): at a live header index resolving only three of the
configured fields, `buildRow` succeeds with a row of width
`max(resolved index) + 1`; with an empty header index it fails with
`noMatchingHeaders`. -/
theorem C1_buildRow_witness :
    (buildRow
        { date := "01-20-2026", transactionType := .buy, symbol := "AAPL",
          quantity := .fin 10, amountPerUnit := .fin (385/2),
          totalAmount := .fin 0, tradingFees := .fin 0,
          investmentAccount := "x" }
        [("Date (MM-DD-YYYY)", 0), ("Stock / ETF Symbol", 2),
         ("Quantity of Units", 4)]
        chatConfig).toOption.map List.length = some 5 ∧
    buildRow
        { date := "01-20-2026", transactionType := .buy, symbol := "AAPL",
          quantity := .fin 10, amountPerUnit := .fin (385/2),
          totalAmount := .fin 0, tradingFees := .fin 0,
          investmentAccount := "x" }
        [] chatConfig = .error .noMatchingHeaders := by
  constructor
  · have hspec := C1_buildRow_spec
      { date := "01-20-2026", transactionType := .buy, symbol := "AAPL",
        quantity := .fin 10, amountPerUnit := .fin (385/2),
        totalAmount := .fin 0, tradingFees := .fin 0,
        investmentAccount := "x" }
      [("Date (MM-DD-YYYY)", 0), ("Stock / ETF Symbol", 2),
       ("Quantity of Units", 4)]
      chatConfig
    cases hrow : buildRow
        { date := "01-20-2026", transactionType := .buy, symbol := "AAPL",
          quantity := .fin 10, amountPerUnit := .fin (385/2),
          totalAmount := .fin 0, tradingFees := .fin 0,
          investmentAccount := "x" }
        [("Date (MM-DD-YYYY)", 0), ("Stock / ETF Symbol", 2),
         ("Quantity of Units", 4)]
        chatConfig with
    | error e =>
      have he := hspec.2.1 e hrow
      subst he
      have hnil := hspec.1.mp hrow
      exact absurd hnil (by decide)
    | ok row =>
      have hlen := (hspec.2.2 row hrow).1
      simp [Except.toOption, hlen]
      decide
  · exact (C1_buildRow_spec _ _ _).1.mpr (by decide)

/-- C5: when a trade's `totalAmount` is absent, non-finite, or exactly
`0`, the value stored in the built row's total-amount column is
`quantity * pricePerUnit`; a finite non-zero `totalAmount` is stored
as given.  (The total-amount header must resolve, and the two entries
written after it must not share its column.) -/
theorem C5_totalAmount_spec (t : Trade) (h : HeaderIndex) (c : TradeLogConfig)
    (idx : Nat)
    (hres : resolveEntryHeader h c.columns.totalAmount = some idx)
    (hfees : resolveEntryHeader h c.columns.tradingFees ≠ some idx)
    (hacct : resolveEntryHeader h c.columns.investmentAccount ≠ some idx) :
    ∃ row, buildRow t h c = .ok row ∧
      row.getD idx "" = cellStr (.n (storedTotalAmount t)) ∧
      ((t.totalAmount.isFiniteB = false ∨ t.totalAmount = .fin 0) →
        row.getD idx "" = cellStr (.n (jsMul t.quantity t.amountPerUnit))) ∧
      (∀ q : ℚ, t.totalAmount = .fin q → q ≠ 0 →
        row.getD idx "" = cellStr (.n (.fin q))) := by
  have hvalid := normalizedSide_valid t.transactionType
  have hmem : idx ∈ resolvedIndices h c := by
    refine List.mem_filterMap.2 ⟨c.columns.totalAmount, ?_, hres⟩
    simp [configuredHeaders]
  have hempty : (resolvedIndices h c).isEmpty = false := by
    rcases hmm : resolvedIndices h c with _ | _
    · rw [hmm] at hmem; simp at hmem
    · simp
  set row := fillRow h
      (rowEntries t c (normalizeTransactionType (sideStr t.transactionType)))
      (List.replicate ((resolvedIndices h c).foldl max 0 + 1) "") with hrowdef
  have hok : buildRow t h c = .ok row := by
    unfold buildRow
    simp only [hvalid, not_true, if_false]
    rw [rowEntries_indices t h c]
    simp [hempty, hrowdef]
  have hgetd : row.getD idx "" = cellStr (.n (storedTotalAmount t)) := by
    rw [hrowdef]
    rw [show rowEntries t c (normalizeTransactionType (sideStr t.transactionType)) =
        [(c.columns.date, .s t.date),
         (c.columns.transactionType,
            .s (normalizeTransactionType (sideStr t.transactionType))),
         (c.columns.symbol, .s t.symbol),
         (c.columns.quantity, .n t.quantity),
         (c.columns.amountPerUnit, .n t.amountPerUnit)] ++
        (c.columns.totalAmount, CellVal.n (storedTotalAmount t)) ::
        [(c.columns.tradingFees, .n t.tradingFees),
         (c.columns.investmentAccount, .s DEFAULT_INVESTMENT_ACCOUNT)] from rfl]
    rw [fillRow_getD_last h _ _ _ _ idx hres ?_ ?_]
    · intro e' he'
      rcases List.mem_cons.1 he' with h1 | h1
      · subst h1; exact hfees
      · rcases List.mem_cons.1 h1 with h2 | h2
        · subst h2; exact hacct
        · simp at h2
    · rw [List.length_replicate]
      have := le_foldl_max_of_mem (resolvedIndices h c) 0 idx hmem
      omega
  refine ⟨row, hok, hgetd, ?_, ?_⟩
  · intro hbad
    have hst : storedTotalAmount t = jsMul t.quantity t.amountPerUnit := by
      unfold storedTotalAmount
      rcases hbad with hb | hb
      · simp [hb]
      · simp [hb, JSNum.isFiniteB]
    rw [hgetd, hst]
  · intro q hq hq0
    have hst : storedTotalAmount t = .fin q := by
      unfold storedTotalAmount
      simp [hq, JSNum.isFiniteB, hq0]
    rw [hgetd, hst]

/-- C5 (witness): a concrete trade with `totalAmount = 0` is stored with
`quantity * pricePerUnit`, and one with a finite non-zero `totalAmount`
keeps it. -/
theorem C5_totalAmount_witness :
    (∃ row, buildRow
        { date := "01-20-2026", transactionType := .buy, symbol := "AAPL",
          quantity := .fin 10, amountPerUnit := .fin 5,
          totalAmount := .fin 0, tradingFees := .fin 0,
          investmentAccount := "x" }
        [("Total Amount (before trading fees)", 1), ("Trading Fees", 2),
         ("Investment Account", 3)]
        chatConfig = .ok row ∧
      row.getD 1 "" = cellStr (.n (jsMul (.fin 10) (.fin 5)))) ∧
    (∃ row, buildRow
        { date := "01-20-2026", transactionType := .sell, symbol := "AAPL",
          quantity := .fin 10, amountPerUnit := .fin 5,
          totalAmount := .fin 49, tradingFees := .fin 0,
          investmentAccount := "x" }
        [("Total Amount (before trading fees)", 1), ("Trading Fees", 2),
         ("Investment Account", 3)]
        chatConfig = .ok row ∧
      row.getD 1 "" = cellStr (.n (.fin 49))) := by
  constructor
  · obtain ⟨row, hok, -, himp, -⟩ := C5_totalAmount_spec
      { date := "01-20-2026", transactionType := .buy, symbol := "AAPL",
        quantity := .fin 10, amountPerUnit := .fin 5,
        totalAmount := .fin 0, tradingFees := .fin 0,
        investmentAccount := "x" }
      [("Total Amount (before trading fees)", 1), ("Trading Fees", 2),
       ("Investment Account", 3)]
      chatConfig 1 (by decide) (by decide) (by decide)
    exact ⟨row, hok, himp (by decide)⟩
  · obtain ⟨row, hok, -, -, himp⟩ := C5_totalAmount_spec
      { date := "01-20-2026", transactionType := .sell, symbol := "AAPL",
        quantity := .fin 10, amountPerUnit := .fin 5,
        totalAmount := .fin 49, tradingFees := .fin 0,
        investmentAccount := "x" }
      [("Total Amount (before trading fees)", 1), ("Trading Fees", 2),
       ("Investment Account", 3)]
      chatConfig 1 (by decide) (by decide) (by decide)
    exact ⟨row, hok, himp 49 rfl (by norm_num)⟩

/-! ## Number parsing and formatting (`parseMoney`, `toFixed(2)`) -/

/-- The characters kept by `value.replace(/[^0-9.-]/g, "")`. -/
def moneyCharB (c : Char) : Bool := c.isDigit || c = '.' || c = '-'

/-- Value of a digit string. -/
def digitsToNat (l : List Char) : Nat :=
  l.foldl (fun a c => a * 10 + (c.toNat - 48)) 0

/-- JS `Number(s)` restricted to strings over the alphabet `[0-9.-]`
(which is all `parseMoney` can feed it): the empty string is `0`; an
optional leading minus, digits and at most one dot form a decimal;
anything else is `NaN` (`none`). -/
def jsNumberOfClean (l : List Char) : Option ℚ :=
  match l with
  | [] => some 0
  | _ =>
    let neg := l.head? = some '-'
    let rest := if neg then l.tail else l
    if rest.any (fun c => !(c.isDigit || c == '.')) then none
    else if 2 ≤ (rest.filter (fun c => c == '.')).length then none
    else
      let intPart := rest.takeWhile (fun c => !(c == '.'))
      let fracPart := (rest.dropWhile (fun c => !(c == '.'))).drop 1
      if intPart.isEmpty && fracPart.isEmpty then none
      else
        let mag : ℚ := (digitsToNat intPart : ℚ) +
          (digitsToNat fracPart : ℚ) / ((10 : ℚ) ^ fracPart.length)
        some (if neg then -mag else mag)

/-- `parseMoney` (`src/server/src/index.ts` lines 46–50): strip all
characters but digits, dot and minus, parse, and fall back to `0` when
the result is not finite. -/
def parseMoney (s : String) : ℚ :=
  match jsNumberOfClean (s.data.filter moneyCharB) with
  | some q => q
  | none => 0

/-- Floor of a rational as an integer. -/
def ratFloorInt (q : ℚ) : Int := q.num.fdiv (q.den : Int)

/-- Two-digit zero padding. -/
def pad2 (k : Nat) : String := if k < 10 then "0" ++ toString k else toString k

/-- JS `x.toFixed(2)`: emit the sign of `x`, then the integer `n`
minimising `|n / 100 - |x||` (ties towards the larger `n`) split into
integer and two-digit fractional part. -/
def toFixed2 (q : ℚ) : String :=
  let sign := if q < 0 then "-" else ""
  let m : ℚ := if q < 0 then -q else q
  let a : Nat := (ratFloorInt (m * 100 + 1/2)).toNat
  sign ++ toString (a / 100) ++ "." ++ pad2 (a % 100)

/-! ## The summarizer (C6) -/

/-- A ledger row as read back: header text → cell text. -/
def RowT : Type := List (String × String)

/-- JS `row[k]` (an absent key is `undefined`). -/
def rowLookup (row : RowT) (k : String) : Option String :=
  (List.find? (fun p => p.1 = k) row).map (fun p => p.2)

/-- `SummaryQuery` — every field optional, `null`/absence collapsed. -/
structure SummaryQuery where
  symbol : Option String
  startDate : Option String
  endDate : Option String
deriving DecidableEq, Repr

/-- JS truthiness of an optional string (absent or empty is falsy). -/
def optTruthy : Option String → Bool
  | some s => !(s == "")
  | none => false

/-- `parseDate` (`src/server/src/index.ts` lines 52–58) around an
abstract `new Date` (`dateParse`, an external parameter of the model):
falsy input and unparseable dates give `null`. -/
def jsParseDateOpt (dateParse : String → Option Int) :
    Option String → Option Int
  | none => none
  | some s => if s == "" then none else dateParse s

/-- Truthiness of the configured date column key. -/
def dateKeyTruthy (c : TradeLogConfig) : Bool :=
  match c.columns.date with
  | some s => !(s == "")
  | none => false

/-- The filtering predicate of `summarizeTrades` (`src/server/src/index.ts`
lines 204–234, identically `src/api/chat.ts` lines 485–501): drop
fully-blank rows, then apply the optional symbol filter
(case-insensitive) and the optional inclusive date range (rows with an
unparseable date are dropped). -/
def rowPasses (c : TradeLogConfig) (dateParse : String → Option Int)
    (q : SummaryQuery) (row : RowT) : Bool :=
  if !(row.any (fun p => !(jsTrim p.2 == ""))) then false
  else if optTruthy q.symbol &&
      !(toUpperStr ((rowLookup row ((c.columns.symbol).getD "")).getD "") ==
        toUpperStr (q.symbol.getD "")) then false
  else if dateKeyTruthy c && (optTruthy q.startDate || optTruthy q.endDate) then
    match jsParseDateOpt dateParse (rowLookup row ((c.columns.date).getD "")) with
    | none => false
    | some rowDate =>
      if (match jsParseDateOpt dateParse q.startDate with
          | some s => decide (rowDate < s)
          | none => false) then false
      else if (match jsParseDateOpt dateParse q.endDate with
          | some e => decide (e < rowDate)
          | none => false) then false
      else true
  else true

/-- The per-symbol accumulator (the serverless copy has no
`otherCount`/`otherTypes`; they stay at their defaults there). -/
structure Agg where
  buyQty : ℚ
  buyValue : ℚ
  sellQty : ℚ
  sellValue : ℚ
  otherCount : Nat
  otherTypes : List String
deriving DecidableEq, Repr

/-- The fresh accumulator. -/
def defaultAgg : Agg :=
  { buyQty := 0, buyValue := 0, sellQty := 0, sellValue := 0,
    otherCount := 0, otherTypes := [] }

/-- `summary.set(symbol, f(entry))` on an insertion-ordered map. -/
def updateAgg : List (String × Agg) → String → (Agg → Agg) →
    List (String × Agg)
  | [], sym, f => [(sym, f defaultAgg)]
  | (k, a) :: rest, sym, f =>
    if k = sym then (k, f a) :: rest else (k, a) :: updateAgg rest sym f

/-- `Set.add` on an insertion-ordered string set. -/
def addUnique (l : List String) (t : String) : List String :=
  if t ∈ l then l else l ++ [t]

/-- One aggregation step of the server `summarizeTrades`
(`src/server/src/index.ts` lines 252–281). -/
def aggStep (c : TradeLogConfig) (m : List (String × Agg)) (row : RowT) :
    List (String × Agg) :=
  let symbol := toUpperStr ((rowLookup row ((c.columns.symbol).getD "")).getD "UNKNOWN")
  let rawSide := toLowerStr (jsTrim ((rowLookup row ((c.columns.transactionType).getD "")).getD ""))
  let qty := parseMoney ((rowLookup row ((c.columns.quantity).getD "")).getD "")
  let amountPerUnit := parseMoney ((rowLookup row ((c.columns.amountPerUnit).getD "")).getD "")
  let t0 := parseMoney ((rowLookup row ((c.columns.totalAmount).getD "")).getD "")
  let totalAmount := if t0 = 0 then amountPerUnit * qty else t0
  if startsWithStr rawSide "buy" then
    updateAgg m symbol (fun e =>
      { e with buyQty := e.buyQty + qty, buyValue := e.buyValue + totalAmount })
  else if startsWithStr rawSide "sell" then
    updateAgg m symbol (fun e =>
      { e with sellQty := e.sellQty + qty, sellValue := e.sellValue + totalAmount })
  else if !(rawSide == "") then
    updateAgg m symbol (fun e =>
      { e with otherCount := e.otherCount + 1,
               otherTypes := addUnique e.otherTypes
                 ((rowLookup row ((c.columns.transactionType).getD "")).getD "Other") })
  else updateAgg m symbol (fun e => e)

/-- One aggregation step of the serverless `summarizeTrades`
(`src/api/chat.ts` lines 507–518): no `other` tracking. -/
def aggStepApi (c : TradeLogConfig) (m : List (String × Agg)) (row : RowT) :
    List (String × Agg) :=
  let symbol := toUpperStr ((rowLookup row ((c.columns.symbol).getD "")).getD "UNKNOWN")
  let rawSide := toLowerStr (jsTrim ((rowLookup row ((c.columns.transactionType).getD "")).getD ""))
  let qty := parseMoney ((rowLookup row ((c.columns.quantity).getD "")).getD "")
  let amountPerUnit := parseMoney ((rowLookup row ((c.columns.amountPerUnit).getD "")).getD "")
  let t0 := parseMoney ((rowLookup row ((c.columns.totalAmount).getD "")).getD "")
  let totalAmount := if t0 = 0 then amountPerUnit * qty else t0
  if startsWithStr rawSide "buy" then
    updateAgg m symbol (fun e =>
      { e with buyQty := e.buyQty + qty, buyValue := e.buyValue + totalAmount })
  else if startsWithStr rawSide "sell" then
    updateAgg m symbol (fun e =>
      { e with sellQty := e.sellQty + qty, sellValue := e.sellValue + totalAmount })
  else updateAgg m symbol (fun e => e)

/-- `entry.buyQty > 0 ? (entry.buyValue / entry.buyQty).toFixed(2) : "0.00"`. -/
def avgStr (qty value : ℚ) : String :=
  if 0 < qty then toFixed2 (value / qty) else "0.00"

/-- The `, other N (types)` suffix of the server summary line. -/
def extrasStr (e : Agg) : String :=
  if 0 < e.otherCount then
    ", other " ++ toString e.otherCount ++ " (" ++
      String.intercalate ", " e.otherTypes ++ ")"
  else ""

/-- One server summary line. -/
def lineForServer (sym : String) (e : Agg) : String :=
  sym ++ ": buy " ++ ratStr e.buyQty ++ " @ avg " ++ avgStr e.buyQty e.buyValue ++
    ", sell " ++ ratStr e.sellQty ++ " @ avg " ++ avgStr e.sellQty e.sellValue ++
    extrasStr e

/-- One serverless summary line (no extras). -/
def lineForApi (sym : String) (e : Agg) : String :=
  sym ++ ": buy " ++ ratStr e.buyQty ++ " @ avg " ++ avgStr e.buyQty e.buyValue ++
    ", sell " ++ ratStr e.sellQty ++ " @ avg " ++ avgStr e.sellQty e.sellValue

/-- The fixed empty-result reply. -/
def noTradesMsg : String := "No trades found for that filter."

/-- `summarizeTrades` (`src/server/src/index.ts` lines 196–298). -/
def summarizeTrades (c : TradeLogConfig) (dateParse : String → Option Int)
    (rows : List RowT) (q : SummaryQuery) : String :=
  let filtered := rows.filter (rowPasses c dateParse q)
  if filtered.isEmpty then noTradesMsg
  else
    let summary := filtered.foldl (aggStep c) []
    "Total trades: " ++ (toString filtered.length ++ (".\n" ++
      String.intercalate "\n" (summary.map (fun p => lineForServer p.1 p.2))))

/-- `summarizeTrades` (`src/api/chat.ts` lines 477–527). -/
def summarizeTradesApi (c : TradeLogConfig) (dateParse : String → Option Int)
    (rows : List RowT) (q : SummaryQuery) : String :=
  let filtered := rows.filter (rowPasses c dateParse q)
  if filtered.isEmpty then noTradesMsg
  else
    let summary := filtered.foldl (aggStepApi c) []
    "Total trades: " ++ (toString filtered.length ++ (".\n" ++
      String.intercalate "\n" (summary.map (fun p => lineForApi p.1 p.2))))

/-- A concrete single buy row: quantity 10 at price 5. -/
def demoBuyRow : RowT :=
  [("Date (MM-DD-YYYY)", "01-02-2026"), ("Transaction Type", "Buy"),
   ("Stock / ETF Symbol", "AAPL"), ("Quantity of Units", "10"),
   ("Amount per unit", "5")]

theorem totalHeader_ne_noTrades (s : String) :
    "Total trades: " ++ s ≠ noTradesMsg := by
  intro h
  have hd : ("Total trades: " ++ s).data = noTradesMsg.data :=
    congrArg String.data h
  rw [show ("Total trades: " ++ s).data = "Total trades: ".data ++ s.data
      from rfl] at hd
  rw [show ("Total trades: ").data = 'T' :: "otal trades: ".data from rfl] at hd
  rw [show noTradesMsg.data = 'N' :: "o trades found for that filter.".data
      from rfl] at hd
  simp at hd

/-- C6: `summarize` returns the fixed no-trades message exactly when the
filtered set is empty (both implementations); a side whose accumulated
quantity is zero is formatted as average `"0.00"` without dividing; and
a single buy row of quantity 10 at price 5 summarizes with buy average
exactly `"5.00"`. -/
theorem C6_summarize_spec :
    (∀ c dp rows q, summarizeTrades c dp rows q = noTradesMsg ↔
      rows.filter (rowPasses c dp q) = []) ∧
    (∀ c dp rows q, summarizeTradesApi c dp rows q = noTradesMsg ↔
      rows.filter (rowPasses c dp q) = []) ∧
    (∀ sym e, e.buyQty = 0 → lineForServer sym e =
      sym ++ ": buy " ++ ratStr 0 ++ " @ avg " ++ "0.00" ++ ", sell " ++
        ratStr e.sellQty ++ " @ avg " ++ avgStr e.sellQty e.sellValue ++
        extrasStr e) ∧
    (∀ sym e, e.sellQty = 0 → lineForServer sym e =
      sym ++ ": buy " ++ ratStr e.buyQty ++ " @ avg " ++
        avgStr e.buyQty e.buyValue ++ ", sell " ++ ratStr 0 ++ " @ avg " ++
        "0.00" ++ extrasStr e) ∧
    (summarizeTrades chatConfig (fun _ => none) [demoBuyRow]
        { symbol := none, startDate := none, endDate := none } =
      "Total trades: 1.\nAAPL: buy 10 @ avg 5.00, sell 0 @ avg 0.00") ∧
    (summarizeTradesApi chatConfig (fun _ => none) [demoBuyRow]
        { symbol := none, startDate := none, endDate := none } =
      "Total trades: 1.\nAAPL: buy 10 @ avg 5.00, sell 0 @ avg 0.00") := by
  refine ⟨?_, ?_, ?_, ?_, ?_, ?_⟩
  · intro c dp rows q
    unfold summarizeTrades
    by_cases hf : rows.filter (rowPasses c dp q) = []
    · simp [hf]
    · have hne : (rows.filter (rowPasses c dp q)).isEmpty = false := by
        simpa [List.isEmpty_iff] using hf
      simp only [hne, Bool.false_eq_true, if_false]
      exact ⟨fun h => absurd h (totalHeader_ne_noTrades _),
             fun h => absurd h hf⟩
  · intro c dp rows q
    unfold summarizeTradesApi
    by_cases hf : rows.filter (rowPasses c dp q) = []
    · simp [hf]
    · have hne : (rows.filter (rowPasses c dp q)).isEmpty = false := by
        simpa [List.isEmpty_iff] using hf
      simp only [hne, Bool.false_eq_true, if_false]
      exact ⟨fun h => absurd h (totalHeader_ne_noTrades _),
             fun h => absurd h hf⟩
  · intro sym e he
    simp [lineForServer, he, avgStr]
  · intro sym e he
    simp [lineForServer, he, avgStr]
  · with_unfolding_all rfl
  · with_unfolding_all rfl

/-- C6 (witness): the zero-quantity formatting rule at the fresh
accumulator, and the empty-filter message on no rows. -/
theorem C6_summarize_witness :
    (lineForServer "X" defaultAgg =
      "X" ++ ": buy " ++ ratStr 0 ++ " @ avg " ++ "0.00" ++ ", sell " ++
        ratStr defaultAgg.sellQty ++ " @ avg " ++
        avgStr defaultAgg.sellQty defaultAgg.sellValue ++
        extrasStr defaultAgg) ∧
    summarizeTrades chatConfig (fun _ => none) []
      { symbol := none, startDate := none, endDate := none } = noTradesMsg :=
  ⟨C6_summarize_spec.2.2.1 "X" defaultAgg rfl,
   (C6_summarize_spec.1 chatConfig (fun _ => none) []
      { symbol := none, startDate := none, endDate := none }).mpr rfl⟩

/-! ## The manual fallback parser (C7, C10)

`parseManualTrade`, `getMissingManualFields`, `manualTradePrompt` and
`manualTradeConfirmation` of `src/server/src/index.ts` lines 60–194.
-/

/-- `line.replace(/\*\*/g, "")`: remove each non-overlapping `**`,
left to right. -/
def removeSS : List Char → List Char
  | '*' :: '*' :: rest => removeSS rest
  | c :: rest => c :: removeSS rest
  | [] => []

/-- The bullet characters of `^[-*•]+\s*`. -/
def isBulletChar (c : Char) : Bool := c = '-' || c = '*' || c = '•'

/-- `line.replace(/^[-*•]+\s*/, "")`. -/
def stripBullets (l : List Char) : List Char :=
  match l with
  | c :: _ => if isBulletChar c then (l.dropWhile isBulletChar).dropWhile isWsChar else l
  | [] => []

/-- `normalizeLine` (`src/server/src/index.ts` lines 60–62). -/
def normalizeLine (s : String) : String :=
  ⟨trimChars (stripBullets (removeSS s.data))⟩

/-- Split on `'\n'` only (the `\r` of a `\r\n` pair is removed by
`stripCRs` below, mirroring the `/\r?\n/` separator). -/
def splitOnNL : List Char → List (List Char)
  | [] => [[]]
  | c :: rest =>
    if c = '\n' then [] :: splitOnNL rest
    else match splitOnNL rest with
      | [] => [[c]]
      | line :: more => (c :: line) :: more

/-- Drop one trailing `'\r'`. -/
def dropTrailingCR (l : List Char) : List Char :=
  if l.getLast? = some '\r' then l.dropLast else l

/-- Remove the `'\r'` of each `\r\n` pair: every piece but the last was
followed by a `'\n'`. -/
def stripCRs : List (List Char) → List (List Char)
  | [] => []
  | [l] => [l]
  | l :: rest => dropTrailingCR l :: stripCRs rest

/-- JS `message.split(/\r?\n/)`. -/
def jsSplitLines (s : String) : List String :=
  (stripCRs (splitOnNL s.data)).map (fun l => (⟨l⟩ : String))

/-- The partial trade shape produced by `parseManualTrade`. -/
structure ManualFields where
  transactionType : Option Side
  symbol : Option String
  quantity : Option ℚ
  amountPerUnit : Option ℚ
  totalAmount : Option ℚ
  tradingFees : Option ℚ
  investmentAccount : Option String
  date : Option String
deriving DecidableEq, Repr

/-- The record before any line matched. -/
def emptyManualFields : ManualFields :=
  { transactionType := none, symbol := none, quantity := none,
    amountPerUnit := none, totalAmount := none, tradingFees := none,
    investmentAccount := none, date := none }

/-- First colon split of `^([^:]+):\s*(.+)$`. -/
def splitAtColon : List Char → Option (List Char × List Char)
  | [] => none
  | c :: rest =>
    if c = ':' then some ([], rest)
    else (splitAtColon rest).map (fun p => (c :: p.1, p.2))

/-- `line.match(/^([^:]+):\s*(.+)$/)` followed by
`match[1].trim().toLowerCase()` and `match[2].trim()`: the label must be
non-empty and something (possibly whitespace, thanks to backtracking of
`\s*`) must follow the colon. -/
def lineLabelValue (line : String) : Option (String × String) :=
  match splitAtColon line.data with
  | none => none
  | some (lab, aft) =>
    if lab.isEmpty || aft.isEmpty then none
    else some (toLowerStr (jsTrim ⟨lab⟩), jsTrim ⟨aft⟩)

/-- The per-line dispatch of `parseManualTrade` (lines 81–122): the first
matching known label substring wins; unrecognized labels are ignored. -/
def applyManualLine (f : ManualFields) (line : String) : ManualFields :=
  match lineLabelValue line with
  | none => f
  | some (label, value) =>
    if containsSub label "transaction type" then
      let side : Side :=
        if containsSub (toLowerStr value) "sell" then .sell else .buy
      { f with transactionType := some side }
    else if containsSub label "stock" || containsSub label "symbol" then
      { f with symbol := some (toUpperStr value) }
    else if containsSub label "quantity" then
      { f with quantity := some (parseMoney value) }
    else if containsSub label "amount per unit" ||
        containsSub label "price per unit" then
      { f with amountPerUnit := some (parseMoney value) }
    else if containsSub label "total amount" then
      { f with totalAmount := some (parseMoney value) }
    else if containsSub label "trading fees" || label == "fees" then
      { f with tradingFees := some (parseMoney value) }
    else if containsSub label "investment account" || label == "account" then
      { f with investmentAccount := some value }
    else if label == "date" then
      { f with date := some value }
    else f

/-- `parseManualTrade` (`src/server/src/index.ts` lines 64–125). -/
def parseManualTrade (message : String) : ManualFields :=
  let lines := ((jsSplitLines message).map normalizeLine).filter
    (fun l => !(l == ""))
  lines.foldl applyManualLine emptyManualFields

/-- JS falsiness of an optional string field (`undefined` or `""`). -/
def strFalsy : Option String → Bool
  | none => true
  | some s => s == ""

/-- JS falsiness of an optional number field (`undefined` or `0`). -/
def numFalsy : Option ℚ → Bool
  | none => true
  | some q => q == 0

/-- `getMissingManualFields` (`src/server/src/index.ts` lines 127–138):
all checks are JS-truthiness checks except `tradingFees`, which only
tests for `undefined`. -/
def getMissingManualFields (f : ManualFields) : List String :=
  (if f.transactionType.isNone then ["Transaction Type"] else []) ++
  (if strFalsy f.symbol then ["Stock/ETF Symbol"] else []) ++
  (if numFalsy f.quantity then ["Quantity of Units"] else []) ++
  (if numFalsy f.amountPerUnit then ["Amount per unit"] else []) ++
  (if strFalsy f.date then ["Date"] else []) ++
  (if numFalsy f.totalAmount then ["Total Amount (before fees)"] else []) ++
  (if f.tradingFees.isNone then ["Trading Fees"] else []) ++
  (if strFalsy f.investmentAccount then ["Investment Account"] else [])

/-- `manualTradePrompt` (`src/server/src/index.ts` lines 153–171). -/
def manualTradePrompt (missing : List String) : String :=
  let missingText :=
    if !missing.isEmpty then
      "Missing: " ++ String.intercalate ", " missing ++ ". "
    else "I couldn\x27t parse all required fields. "
  "I can\x27t reach the AI right now (API key issue). " ++ missingText ++
  "You can still log a trade by sending details in this format:\n" ++
  "- Transaction Type: buy\n" ++
  "- Stock/ETF Symbol: SPUS\n" ++
  "- Quantity of Units: 10\n" ++
  "- Amount per unit: 55.00\n" ++
  "- Date: 01-20-2026\n" ++
  "- Total Amount (before fees): 550.00\n" ++
  "- Trading Fees: 0\n" ++
  "- Investment Account: Brokerage 1"

/-- The committed manual trade (all required fields present). -/
structure ManualTrade where
  transactionType : Side
  symbol : String
  quantity : ℚ
  amountPerUnit : ℚ
  totalAmount : ℚ
  tradingFees : ℚ
  investmentAccount : String
  date : String
deriving DecidableEq, Repr

/-- `manualTradeConfirmation` (`src/server/src/index.ts` lines 173–194). -/
def manualTradeConfirmation (t : ManualTrade) : String :=
  "Logged trade manually:\n" ++
  "- Transaction Type: " ++ sideStr t.transactionType ++ "\n" ++
  "- Stock/ETF Symbol: " ++ t.symbol ++ "\n" ++
  "- Quantity of Units: " ++ ratStr t.quantity ++ "\n" ++
  "- Amount per unit: " ++ ratStr t.amountPerUnit ++ "\n" ++
  "- Date: " ++ t.date ++ "\n" ++
  "- Total Amount (before fees): " ++ ratStr t.totalAmount ++ "\n" ++
  "- Trading Fees: " ++ ratStr t.tradingFees ++ "\n" ++
  "- Investment Account: " ++ t.investmentAccount

/-- C10: a `quantity`, `amountPerUnit` or `totalAmount` that parses to
exactly `0` is reported missing (zero treated as absent, so the manual
fallback cannot commit the trade), whereas a `tradingFees` of `0` is
accepted — only an undefined `tradingFees` counts as missing. -/
theorem C10_zero_fields_spec (msg : String) :
    ((parseManualTrade msg).quantity = some 0 →
      "Quantity of Units" ∈ getMissingManualFields (parseManualTrade msg)) ∧
    ((parseManualTrade msg).amountPerUnit = some 0 →
      "Amount per unit" ∈ getMissingManualFields (parseManualTrade msg)) ∧
    ((parseManualTrade msg).totalAmount = some 0 →
      "Total Amount (before fees)" ∈
        getMissingManualFields (parseManualTrade msg)) ∧
    ((parseManualTrade msg).tradingFees = some 0 →
      "Trading Fees" ∉ getMissingManualFields (parseManualTrade msg)) := by
  set f := parseManualTrade msg with hf
  refine ⟨?_, ?_, ?_, ?_⟩
  · intro h
    unfold getMissingManualFields
    simp [numFalsy, h]
  · intro h
    unfold getMissingManualFields
    simp [numFalsy, h]
  · intro h
    unfold getMissingManualFields
    simp [numFalsy, h]
  · intro h
    unfold getMissingManualFields
    have : f.tradingFees.isNone = false := by simp [h]
    simp [this]

/-- C10 (witness): a concrete message with zero quantity and zero fees. -/
theorem C10_zero_fields_witness :
    "Quantity of Units" ∈ getMissingManualFields
      (parseManualTrade "Quantity of Units: 0\nTrading Fees: 0") ∧
    "Trading Fees" ∉ getMissingManualFields
      (parseManualTrade "Quantity of Units: 0\nTrading Fees: 0") :=
  ⟨(C10_zero_fields_spec "Quantity of Units: 0\nTrading Fees: 0").1
      (by with_unfolding_all rfl),
   (C10_zero_fields_spec "Quantity of Units: 0\nTrading Fees: 0").2.2.2
      (by with_unfolding_all rfl)⟩

/-! ### Character-level lemmas for the manual parser -/

theorem removeSS_cons_of_ne (c : Char) (rest : List Char) (hc : c ≠ '*') :
    removeSS (c :: rest) = c :: removeSS rest := by
  rw [removeSS.eq_def]
  split
  · rename_i heq
    injection heq with h1 h2
    exact absurd h1 hc
  · rename_i heq
    injection heq with h1 h2
    subst h1
    subst h2
    rfl
  · rename_i heq
    exact absurd heq (by simp)

theorem removeSS_of_noStar : ∀ (l : List Char), (∀ c ∈ l, c ≠ '*') →
    removeSS l = l := by
  intro l
  induction l with
  | nil => intro _; rfl
  | cons c rest ih =>
    intro h
    rw [removeSS_cons_of_ne c rest (h c (by simp))]
    rw [ih (fun x hx => h x (by simp [hx]))]

theorem stripBullets_cons (c : Char) (l : List Char)
    (h : isBulletChar c = false) : stripBullets (c :: l) = c :: l := by
  simp [stripBullets, h]

theorem dropWhile_append_of_ne_nil (p : Char → Bool) :
    ∀ (a b : List Char), List.dropWhile p a ≠ [] →
      List.dropWhile p (a ++ b) = List.dropWhile p a ++ b := by
  intro a
  induction a with
  | nil => intro b h; exact absurd rfl h
  | cons c a' ih =>
    intro b h
    by_cases hc : p c
    · simp only [List.cons_append, List.dropWhile_cons, hc, if_true]
      exact ih b (by simpa [List.dropWhile_cons, hc] using h)
    · simp only [List.cons_append, List.dropWhile_cons, hc,
        Bool.false_eq_true, if_false]

theorem dropWhile_idem (p : Char → Bool) :
    ∀ (l : List Char), List.dropWhile p (List.dropWhile p l) =
      List.dropWhile p l := by
  intro l
  induction l with
  | nil => rfl
  | cons c l' ih =>
    by_cases hc : p c
    · simp only [List.dropWhile_cons, hc, if_true]
      exact ih
    · simp only [List.dropWhile_cons, hc, Bool.false_eq_true, if_false]

theorem trimR_ne_nil_of_trim_ne_nil (l : List Char) (h : trimChars l ≠ []) :
    trimRChars l ≠ [] := by
  intro hx
  apply h
  unfold trimChars
  rw [hx]
  rfl

theorem trimR_append (a b : List Char) (h : trimRChars b ≠ []) :
    trimRChars (a ++ b) = a ++ trimRChars b := by
  unfold trimRChars at *
  rw [List.reverse_append]
  rw [dropWhile_append_of_ne_nil isWsChar b.reverse a.reverse
    (by intro hx; exact h (by rw [hx]; rfl))]
  rw [List.reverse_append, List.reverse_reverse]

theorem trimR_idem (l : List Char) : trimRChars (trimRChars l) = trimRChars l := by
  unfold trimRChars
  rw [List.reverse_reverse, dropWhile_idem]

theorem trimL_cons_of_not_ws (c : Char) (l : List Char)
    (h : isWsChar c = false) : trimLChars (c :: l) = c :: l := by
  simp [trimLChars, List.dropWhile_cons, h]

theorem trimL_cons_of_ws (c : Char) (l : List Char)
    (h : isWsChar c = true) : trimLChars (c :: l) = trimLChars l := by
  simp [trimLChars, List.dropWhile_cons, h]

theorem splitOnNL_ne_nil : ∀ (l : List Char), splitOnNL l ≠ [] := by
  intro l
  cases l with
  | nil => simp [splitOnNL]
  | cons c rest =>
    rw [splitOnNL.eq_def]
    by_cases hc : c = '\n'
    · simp [hc]
    · simp only [hc, if_false]
      cases splitOnNL rest with
      | nil => simp
      | cons x xs => simp

theorem splitOnNL_no_nl : ∀ (a : List Char), (∀ c ∈ a, c ≠ '\n') →
    splitOnNL a = [a] := by
  intro a
  induction a with
  | nil => intro _; rfl
  | cons c a' ih =>
    intro h
    have hc : c ≠ '\n' := h c (by simp)
    rw [splitOnNL.eq_def]
    simp only [hc, if_false]
    rw [ih (fun x hx => h x (by simp [hx]))]

theorem splitOnNL_append (a b : List Char) (h : ∀ c ∈ a, c ≠ '\n') :
    splitOnNL (a ++ '\n' :: b) = a :: splitOnNL b := by
  induction a with
  | nil => simp [splitOnNL]
  | cons c a' ih =>
    have hc : c ≠ '\n' := h c (by simp)
    rw [List.cons_append, splitOnNL.eq_def]
    simp only [hc, if_false]
    rw [ih (fun x hx => h x (by simp [hx]))]

theorem getLast?_mem_of_eq {α : Type} (l : List α) (a : α)
    (h : l.getLast? = some a) : a ∈ l := by
  induction l with
  | nil => simp at h
  | cons x xs ih =>
    cases xs with
    | nil =>
      simp [List.getLast?] at h
      simp [h]
    | cons y ys =>
      rw [List.getLast?_cons_cons] at h
      exact List.mem_cons_of_mem x (ih h)

theorem dropTrailingCR_of_noCR (l : List Char) (h : ∀ c ∈ l, c ≠ '\r') :
    dropTrailingCR l = l := by
  unfold dropTrailingCR
  rw [if_neg]
  intro hx
  exact h '\r' (getLast?_mem_of_eq l '\r' hx) rfl

theorem stripCRs_cons_cons (l x : List Char) (xs : List (List Char)) :
    stripCRs (l :: x :: xs) = dropTrailingCR l :: stripCRs (x :: xs) := rfl


/-! ### The canonical labeled-line message family

The eight required fields, the exact label text the server's own prompt
(`manualTradePrompt`) instructs the user to send, and a message
constructor gluing one `Label: value` line per field.  `cleanVal`
captures the values for which a line is a well-formed field line: no
line breaks, no `**` markup (no `*` at all), and a non-whitespace
payload.
-/

/-- The eight manual trade fields. -/
inductive FieldKind
  | tt
  | symbol
  | quantity
  | amountPerUnit
  | date
  | totalAmount
  | tradingFees
  | account
deriving DecidableEq, Repr

/-- The label of each field, as in `manualTradePrompt`; these strings
also name the field in `getMissingManualFields`. -/
def labelOf : FieldKind → String
  | .tt => "Transaction Type"
  | .symbol => "Stock/ETF Symbol"
  | .quantity => "Quantity of Units"
  | .amountPerUnit => "Amount per unit"
  | .date => "Date"
  | .totalAmount => "Total Amount (before fees)"
  | .tradingFees => "Trading Fees"
  | .account => "Investment Account"

/-- The field assignment a recognised label performs. -/
def setManualField (f : ManualFields) : FieldKind → String → ManualFields
  | .tt, w =>
    let side : Side :=
      if containsSub (toLowerStr w) "sell" then .sell else .buy
    { f with transactionType := some side }
  | .symbol, w => { f with symbol := some (toUpperStr w) }
  | .quantity, w => { f with quantity := some (parseMoney w) }
  | .amountPerUnit, w => { f with amountPerUnit := some (parseMoney w) }
  | .date, w => { f with date := some w }
  | .totalAmount, w => { f with totalAmount := some (parseMoney w) }
  | .tradingFees, w => { f with tradingFees := some (parseMoney w) }
  | .account, w => { f with investmentAccount := some w }

/-- A well-formed field value: no line breaks, no `*`, and a
non-whitespace payload. -/
def cleanVal (v : String) : Prop :=
  (∀ c ∈ v.data, c ≠ '\n' ∧ c ≠ '\r' ∧ c ≠ '*') ∧ trimChars v.data ≠ []

/-- One `Label: value` line. -/
def labelLine (k : FieldKind) (v : String) : String := labelOf k ++ ": " ++ v

/-- `lines.join("\n")` — the format the server's own prompt requests. -/
def joinNL : List String → String
  | [] => ""
  | [l] => l
  | l :: rest => l ++ "\n" ++ joinNL rest

/-- A message consisting of one labeled line per listed field. -/
def manualMsg (ks : List (FieldKind × String)) : String :=
  joinNL (ks.map (fun p => labelLine p.1 p.2))

theorem joinNL_cons_cons (l l2 : String) (rest : List String) :
    joinNL (l :: l2 :: rest) = l ++ "\n" ++ joinNL (l2 :: rest) := rfl

theorem jsSplitLines_joinNL : ∀ (lines : List String), lines ≠ [] →
    (∀ l ∈ lines, ∀ c ∈ l.data, c ≠ '\n' ∧ c ≠ '\r') →
    jsSplitLines (joinNL lines) = lines := by
  intro lines
  induction lines with
  | nil => intro h _; exact absurd rfl h
  | cons l rest ih =>
    intro _ hclean
    cases rest with
    | nil =>
      show jsSplitLines (joinNL [l]) = [l]
      unfold jsSplitLines
      rw [show joinNL [l] = l from rfl]
      rw [splitOnNL_no_nl l.data (fun c hc => ((hclean l (by simp) c hc)).1)]
      rfl
    | cons l2 rest2 =>
      rw [joinNL_cons_cons]
      unfold jsSplitLines
      rw [show (l ++ "\n" ++ joinNL (l2 :: rest2)).data =
          l.data ++ '\n' :: (joinNL (l2 :: rest2)).data by
        show (l.data ++ '\n' :: List.nil) ++ _ = _
        rw [List.append_assoc]
        rfl]
      rw [splitOnNL_append l.data (joinNL (l2 :: rest2)).data
        (fun c hc => (hclean l (by simp) c hc).1)]
      obtain ⟨x, xs, hx⟩ : ∃ x xs, splitOnNL (joinNL (l2 :: rest2)).data = x :: xs := by
        cases hsp : splitOnNL (joinNL (l2 :: rest2)).data with
        | nil => exact absurd hsp (splitOnNL_ne_nil _)
        | cons x xs => exact ⟨x, xs, rfl⟩
      rw [hx, stripCRs_cons_cons,
        dropTrailingCR_of_noCR l.data (fun c hc => (hclean l (by simp) c hc).2)]
      have hrest := ih (by simp) (fun x hx c hc => hclean x (by simp [hx]) c hc)
      unfold jsSplitLines at hrest
      rw [hx] at hrest
      rw [List.map_cons]
      rw [show ((⟨l.data⟩ : String)) = l from rfl]
      rw [show (stripCRs (x :: xs)).map (fun l => (⟨l⟩ : String)) = l2 :: rest2 from hrest]

theorem cleanVal_trimR_ne (v : String) (hv : cleanVal v) :
    trimRChars v.data ≠ [] :=
  trimR_ne_nil_of_trim_ne_nil v.data hv.2

/-- Normalization of a well-formed labeled line: markup removal, bullet
stripping and trimming leave `Label: value-trimmed-right`. -/
theorem normalizeLine_label_generic (L : List Char) (v : String)
    (hstar : ∀ c ∈ L, c ≠ '*')
    (hhead : ∃ c rest, L = c :: rest ∧ isBulletChar c = false ∧
      isWsChar c = false)
    (hv : cleanVal v) :
    normalizeLine ⟨L ++ ':' :: ' ' :: v.data⟩ =
      ⟨L ++ ':' :: ' ' :: trimRChars v.data⟩ := by
  obtain ⟨c, rest, hL, hbul, hws⟩ := hhead
  unfold normalizeLine
  rw [show (⟨L ++ ':' :: ' ' :: v.data⟩ : String).data =
      L ++ ':' :: ' ' :: v.data from rfl]
  rw [removeSS_of_noStar (L ++ ':' :: ' ' :: v.data) ?hstar]
  case hstar =>
    intro x hx
    rcases List.mem_append.1 hx with h1 | h1
    · exact hstar x h1
    · rcases List.mem_cons.1 h1 with h1 | h1
      · subst h1; decide
      · rcases List.mem_cons.1 h1 with h1 | h1
        · subst h1; decide
        · exact (hv.1 x h1).2.2
  rw [hL, List.cons_append, stripBullets_cons c _ hbul, ← List.cons_append,
    ← hL]
  unfold trimChars
  rw [show L ++ ':' :: ' ' :: v.data = (L ++ [':', ' ']) ++ v.data by
    rw [List.append_assoc]; rfl]
  rw [trimR_append (L ++ [':', ' ']) v.data (cleanVal_trimR_ne v hv)]
  rw [show (L ++ [':', ' ']) ++ trimRChars v.data =
      L ++ ':' :: ' ' :: trimRChars v.data by rw [List.append_assoc]; rfl]
  rw [hL, List.cons_append, trimL_cons_of_not_ws c _ hws, ← List.cons_append,
    ← hL]

theorem splitAtColon_append (a b : List Char) (h : ∀ c ∈ a, c ≠ ':') :
    splitAtColon (a ++ ':' :: b) = some (a, b) := by
  induction a with
  | nil => simp [splitAtColon]
  | cons c a' ih =>
    have hc : c ≠ ':' := h c (by simp)
    rw [List.cons_append]
    unfold splitAtColon
    simp only [hc, if_false]
    rw [ih (fun x hx => h x (by simp [hx]))]
    rfl

/-- The label/value extraction on a normalized well-formed line. -/
theorem lineLabelValue_norm (L : List Char) (v : String)
    (hcolon : ∀ c ∈ L, c ≠ ':') (hne : L ≠ [])
    (hv : trimRChars v.data ≠ []) :
    lineLabelValue ⟨L ++ ':' :: ' ' :: trimRChars v.data⟩ =
      some (toLowerStr (jsTrim ⟨L⟩), jsTrim v) := by
  unfold lineLabelValue
  rw [show (⟨L ++ ':' :: ' ' :: trimRChars v.data⟩ : String).data =
      L ++ ':' :: ' ' :: trimRChars v.data from rfl]
  rw [splitAtColon_append L (' ' :: trimRChars v.data) hcolon]
  have hLne : L.isEmpty = false := by
    cases L with
    | nil => exact absurd rfl hne
    | cons a b => rfl
  have hval : jsTrim (⟨' ' :: trimRChars v.data⟩ : String) = jsTrim v := by
    unfold jsTrim
    congr 1
    unfold trimChars
    rw [show (⟨' ' :: trimRChars v.data⟩ : String).data =
        [' '] ++ trimRChars v.data from rfl]
    rw [trimR_append [' '] (trimRChars v.data)
      (by rw [trimR_idem]; exact hv)]
    rw [trimR_idem]
    rw [show [' '] ++ trimRChars v.data = ' ' :: trimRChars v.data from rfl]
    rw [trimL_cons_of_ws ' ' _ (by decide)]
  simp only [hLne, List.isEmpty_cons, Bool.or_self, Bool.or_false,
    Bool.false_eq_true, if_false, hval]

theorem labelLine_data (k : FieldKind) (v : String) :
    (labelLine k v).data = (labelOf k).data ++ ':' :: ' ' :: v.data := by
  show ((labelOf k).data ++ [':', ' ']) ++ v.data = _
  rw [List.append_assoc]
  rfl

theorem mk_append_ne_empty (L rest : List Char) (h : L ≠ []) :
    (((⟨L ++ rest⟩ : String) == "")) = false := by
  rw [beq_eq_false_iff_ne]
  intro hx
  have h2 : L ++ rest = ([] : List Char) := congrArg String.data hx
  rcases List.append_eq_nil.1 h2 with ⟨h3, _⟩
  exact h h3

/-- A well-formed labeled line sets exactly its field, to the trimmed
value. -/
theorem applyManualLine_labelLine (k : FieldKind) (f : ManualFields)
    (v : String) (hv : cleanVal v) :
    applyManualLine f (normalizeLine (labelLine k v)) =
      setManualField f k (jsTrim v) := by
  have hs : ∀ c ∈ (labelOf k).data, c ≠ '*' := by cases k <;> decide
  have hh : ∃ c rest, (labelOf k).data = c :: rest ∧
      isBulletChar c = false ∧ isWsChar c = false := by
    cases k <;> exact ⟨_, _, rfl, by decide, by decide⟩
  have hcol : ∀ c ∈ (labelOf k).data, c ≠ ':' := by cases k <;> decide
  have hnn : (labelOf k).data ≠ [] := by cases k <;> decide
  have h1 : labelLine k v = ⟨(labelOf k).data ++ ':' :: ' ' :: v.data⟩ :=
    congrArg (fun l => (⟨l⟩ : String)) (labelLine_data k v)
  rw [h1]
  rw [normalizeLine_label_generic ((labelOf k).data) v hs hh hv]
  unfold applyManualLine
  rw [lineLabelValue_norm ((labelOf k).data) v hcol hnn
    (cleanVal_trimR_ne v hv)]
  cases k <;> rfl

theorem parse_lines_foldl : ∀ (ks : List (FieldKind × String))
    (f : ManualFields), (∀ p ∈ ks, cleanVal p.2) →
    ((ks.map (fun p => normalizeLine (labelLine p.1 p.2))).foldl
        applyManualLine f) =
      ks.foldl (fun g p => setManualField g p.1 (jsTrim p.2)) f := by
  intro ks
  induction ks with
  | nil => intro f _; rfl
  | cons p ps ih =>
    intro f h
    rw [List.map_cons, List.foldl_cons, List.foldl_cons]
    rw [applyManualLine_labelLine p.1 f p.2 (h p (by simp))]
    exact ih _ (fun q hq => h q (by simp [hq]))

/-- `parseManualTrade` on a canonical labeled-line message performs one
field assignment per line. -/
theorem parseManual_manualMsg (ks : List (FieldKind × String))
    (hne : ks ≠ []) (h : ∀ p ∈ ks, cleanVal p.2) :
    parseManualTrade (manualMsg ks) =
      ks.foldl (fun g p => setManualField g p.1 (jsTrim p.2))
        emptyManualFields := by
  unfold parseManualTrade manualMsg
  rw [jsSplitLines_joinNL (ks.map (fun p => labelLine p.1 p.2))
      (by simpa using hne) ?hclean]
  case hclean =>
    intro l hl c hc
    rw [List.mem_map] at hl
    obtain ⟨p, hp, rfl⟩ := hl
    rw [labelLine_data] at hc
    rcases List.mem_append.1 hc with h1 | h1
    · have hlab : ∀ x ∈ (labelOf p.1).data, x ≠ '\n' ∧ x ≠ '\r' := by
        cases p.1 <;> decide
      exact hlab c h1
    · rcases List.mem_cons.1 h1 with h1 | h1
      · subst h1; exact ⟨by decide, by decide⟩
      · rcases List.mem_cons.1 h1 with h1 | h1
        · subst h1; exact ⟨by decide, by decide⟩
        · exact ⟨((h p hp).1 c h1).1, ((h p hp).1 c h1).2.1⟩
  rw [List.map_map]
  rw [List.filter_eq_self.mpr ?hfil]
  case hfil =>
    intro a ha
    rw [List.mem_map] at ha
    obtain ⟨p, hp, rfl⟩ := ha
    obtain ⟨k, w⟩ := p
    show (!(normalizeLine (labelLine k w) == "")) = true
    have hs : ∀ c ∈ (labelOf k).data, c ≠ '*' := by cases k <;> decide
    have hh : ∃ c rest, (labelOf k).data = c :: rest ∧
        isBulletChar c = false ∧ isWsChar c = false := by
      cases k <;> exact ⟨_, _, rfl, by decide, by decide⟩
    have h1 : labelLine k w = ⟨(labelOf k).data ++ ':' :: ' ' :: w.data⟩ :=
      congrArg (fun l => (⟨l⟩ : String)) (labelLine_data k w)
    rw [h1]
    rw [normalizeLine_label_generic ((labelOf k).data) w hs hh (h (k, w) hp)]
    rw [mk_append_ne_empty _ _ (by cases k <;> decide)]
    rfl
  exact parse_lines_foldl ks emptyManualFields h

/-- C7: a message carrying all eight correctly labeled field lines (with
well-formed values: no markup or line breaks, non-blank, and non-zero
where a zero would be treated as absent) has no missing fields; and the
same message with any single labeled line removed is missing exactly
that field. -/
theorem C7_manual_missing_spec
    (v1 v2 v3 v4 v5 v6 v7 v8 : String)
    (h1 : cleanVal v1) (h2 : cleanVal v2) (h3 : cleanVal v3)
    (h4 : cleanVal v4) (h5 : cleanVal v5) (h6 : cleanVal v6)
    (h7 : cleanVal v7) (h8 : cleanVal v8)
    (hq : parseMoney (jsTrim v3) ≠ 0)
    (ha : parseMoney (jsTrim v4) ≠ 0)
    (ht : parseMoney (jsTrim v6) ≠ 0) :
    getMissingManualFields (parseManualTrade (manualMsg
      [(.tt, v1), (.symbol, v2), (.quantity, v3), (.amountPerUnit, v4),
       (.date, v5), (.totalAmount, v6), (.tradingFees, v7),
       (.account, v8)])) = [] ∧
    getMissingManualFields (parseManualTrade (manualMsg
      [(.symbol, v2), (.quantity, v3), (.amountPerUnit, v4), (.date, v5),
       (.totalAmount, v6), (.tradingFees, v7), (.account, v8)])) =
      ["Transaction Type"] ∧
    getMissingManualFields (parseManualTrade (manualMsg
      [(.tt, v1), (.quantity, v3), (.amountPerUnit, v4), (.date, v5),
       (.totalAmount, v6), (.tradingFees, v7), (.account, v8)])) =
      ["Stock/ETF Symbol"] ∧
    getMissingManualFields (parseManualTrade (manualMsg
      [(.tt, v1), (.symbol, v2), (.amountPerUnit, v4), (.date, v5),
       (.totalAmount, v6), (.tradingFees, v7), (.account, v8)])) =
      ["Quantity of Units"] ∧
    getMissingManualFields (parseManualTrade (manualMsg
      [(.tt, v1), (.symbol, v2), (.quantity, v3), (.date, v5),
       (.totalAmount, v6), (.tradingFees, v7), (.account, v8)])) =
      ["Amount per unit"] ∧
    getMissingManualFields (parseManualTrade (manualMsg
      [(.tt, v1), (.symbol, v2), (.quantity, v3), (.amountPerUnit, v4),
       (.totalAmount, v6), (.tradingFees, v7), (.account, v8)])) =
      ["Date"] ∧
    getMissingManualFields (parseManualTrade (manualMsg
      [(.tt, v1), (.symbol, v2), (.quantity, v3), (.amountPerUnit, v4),
       (.date, v5), (.tradingFees, v7), (.account, v8)])) =
      ["Total Amount (before fees)"] ∧
    getMissingManualFields (parseManualTrade (manualMsg
      [(.tt, v1), (.symbol, v2), (.quantity, v3), (.amountPerUnit, v4),
       (.date, v5), (.totalAmount, v6), (.account, v8)])) =
      ["Trading Fees"] ∧
    getMissingManualFields (parseManualTrade (manualMsg
      [(.tt, v1), (.symbol, v2), (.quantity, v3), (.amountPerUnit, v4),
       (.date, v5), (.totalAmount, v6), (.tradingFees, v7)])) =
      ["Investment Account"] := by
  have hn5 : ¬ jsTrim v5 = "" := fun hx => h5.2 (congrArg String.data hx)
  have hn8 : ¬ jsTrim v8 = "" := fun hx => h8.2 (congrArg String.data hx)
  have hn2 : ¬ toUpperStr (jsTrim v2) = "" := by
    intro hx
    have hmap : (trimChars v2.data).map Char.toUpper = ([] : List Char) :=
      congrArg String.data hx
    rw [List.map_eq_nil_iff] at hmap
    exact h2.2 hmap
  refine ⟨?_, ?_, ?_, ?_, ?_, ?_, ?_, ?_, ?_⟩ <;>
    (rw [parseManual_manualMsg _ (by simp) (by
        intro p hp
        fin_cases hp <;> assumption)]
     simp only [List.foldl, setManualField]
     unfold getMissingManualFields
     simp [emptyManualFields, numFalsy, strFalsy, hq, ha, ht, hn2, hn5, hn8])

/-- C7 (witness): the exact sample message format of `manualTradePrompt`
is complete, and dropping its quantity line is missing exactly the
quantity field. -/
theorem C7_manual_missing_witness :
    getMissingManualFields (parseManualTrade (manualMsg
      [(.tt, "buy"), (.symbol, "SPUS"), (.quantity, "10"),
       (.amountPerUnit, "55.00"), (.date, "01-20-2026"),
       (.totalAmount, "550.00"), (.tradingFees, "0"),
       (.account, "Brokerage 1")])) = [] ∧
    getMissingManualFields (parseManualTrade (manualMsg
      [(.tt, "buy"), (.symbol, "SPUS"), (.amountPerUnit, "55.00"),
       (.date, "01-20-2026"), (.totalAmount, "550.00"),
       (.tradingFees, "0"), (.account, "Brokerage 1")])) =
      ["Quantity of Units"] := by
  have h := C7_manual_missing_spec "buy" "SPUS" "10" "55.00" "01-20-2026"
    "550.00" "0" "Brokerage 1"
    ⟨by decide, by decide⟩ ⟨by decide, by decide⟩ ⟨by decide, by decide⟩
    ⟨by decide, by decide⟩ ⟨by decide, by decide⟩ ⟨by decide, by decide⟩
    ⟨by decide, by decide⟩ ⟨by decide, by decide⟩
    (by with_unfolding_all decide) (by with_unfolding_all decide)
    (by with_unfolding_all decide)
  exact ⟨h.1, h.2.2.2.1⟩

/-! ## The intent resolver (C8)

`interpretMessage` of the agent module (`src/unnamed/part_001` lines
161–202; identically `src/api/chat.ts` lines 387–414): brace extraction,
`JSON.parse` inside `try/catch` defaulting to `{}`, zod validation
collapsing failures to the `unknown` action.  The JSON parser below
models `JSON.parse` (fuel-bounded recursion; ample fuel).
-/

/-- `text.indexOf(c)`. -/
def idxOf (c : Char) (l : List Char) : Option Nat :=
  jsFindIndex (fun x => x = c) l

/-- `text.lastIndexOf(c)`. -/
def lastIdxOf (c : Char) (l : List Char) : Option Nat :=
  (idxOf c l.reverse).map (fun i => l.length - 1 - i)

/-- `extractJson`: the span from the first `{` to the last `}`, `none`
when either is absent or the span is empty or reversed. -/
def extractJson (text : String) : Option String :=
  match idxOf '\x7b' text.data, lastIdxOf '\x7d' text.data with
  | some start, some stop =>
    if stop ≤ start then none
    else some ⟨(text.data.drop start).take (stop + 1 - start)⟩
  | some _, none => none
  | none, _ => none

/-- A JSON value. -/
inductive Json
  | null
  | bool (b : Bool)
  | num (q : ℚ)
  | str (s : String)
  | arr (xs : List Json)
  | obj (fields : List (String × Json))

/-- JSON whitespace. -/
def skipWs (l : List Char) : List Char :=
  l.dropWhile (fun c => c = ' ' || c = '\t' || c = '\n' || c = '\r')

/-- Hex digit value. -/
def hexVal (c : Char) : Option Nat :=
  if c.isDigit then some (c.toNat - 48)
  else if 'a' ≤ c ∧ c ≤ 'f' then some (c.toNat - 87)
  else if 'A' ≤ c ∧ c ≤ 'F' then some (c.toNat - 55)
  else none

/-- JSON string body after the opening quote. -/
def parseStr : Nat → List Char → Option (String × List Char)
  | 0, _ => none
  | Nat.succ fuel, l =>
    match l with
    | [] => none
    | '"' :: rest => some ("", rest)
    | '\\' :: e :: rest =>
      let cont := fun (c : Char) (r : List Char) =>
        (parseStr fuel r).map (fun p => ((⟨c :: p.1.data⟩ : String), p.2))
      match e with
      | '"' => cont '"' rest
      | '\\' => cont '\\' rest
      | '/' => cont '/' rest
      | 'b' => cont '\x08' rest
      | 'f' => cont '\x0c' rest
      | 'n' => cont '\n' rest
      | 'r' => cont '\r' rest
      | 't' => cont '\t' rest
      | 'u' =>
        match rest with
        | a :: b :: c :: d :: rest2 =>
          match hexVal a, hexVal b, hexVal c, hexVal d with
          | some x1, some x2, some x3, some x4 =>
            (parseStr fuel rest2).map (fun p =>
              ((⟨Char.ofNat (x1 * 4096 + x2 * 256 + x3 * 16 + x4) ::
                p.1.data⟩ : String), p.2))
          | _, _, _, _ => none
        | _ => none
      | _ => none
    | c :: rest =>
      if c.toNat < 32 then none
      else (parseStr fuel rest).map (fun p => ((⟨c :: p.1.data⟩ : String), p.2))

/-- JSON exponent part (after `e`/`E`). -/
def expParse (t : List Char) : Int × List Char × Bool :=
  let st := match t with
    | '+' :: r => ((1 : Int), r)
    | '-' :: r => ((-1 : Int), r)
    | _ => ((1 : Int), t)
  let eds := st.2.takeWhile Char.isDigit
  let t2 := st.2.dropWhile Char.isDigit
  if eds.isEmpty then (0, t2, false)
  else (st.1 * (digitsToNat eds : Int), t2, true)

/-- JSON number grammar: optional minus, `0` or non-zero-led digits,
optional fraction, optional exponent. -/
def parseJsonNumber (l : List Char) : Option (ℚ × List Char) :=
  let sn := match l with
    | '-' :: t => (true, t)
    | _ => (false, l)
  let ints := sn.2.takeWhile Char.isDigit
  let l2 := sn.2.dropWhile Char.isDigit
  if ints.isEmpty then none
  else if 2 ≤ ints.length ∧ ints.head? = some '0' then none
  else
    let fr := match l2 with
      | '.' :: t => (t.takeWhile Char.isDigit, t.dropWhile Char.isDigit,
          !(t.takeWhile Char.isDigit).isEmpty)
      | _ => (([] : List Char), l2, true)
    if !fr.2.2 then none
    else
      let ex := match fr.2.1 with
        | 'e' :: t => expParse t
        | 'E' :: t => expParse t
        | _ => ((0 : Int), fr.2.1, true)
      if !ex.2.2 then none
      else
        let mag : ℚ := ((digitsToNat ints : ℚ) +
          (digitsToNat fr.1 : ℚ) / ((10 : ℚ) ^ fr.1.length)) *
          ((10 : ℚ) ^ ex.1)
        some ((if sn.1 then -mag else mag), ex.2.1)

mutual

/-- One JSON value, returning the unconsumed rest. -/
def parseVal : Nat → List Char → Option (Json × List Char)
  | 0, _ => none
  | Nat.succ fuel, l =>
    match skipWs l with
    | [] => none
    | 'n' :: 'u' :: 'l' :: 'l' :: rest => some (.null, rest)
    | 't' :: 'r' :: 'u' :: 'e' :: rest => some (.bool true, rest)
    | 'f' :: 'a' :: 'l' :: 's' :: 'e' :: rest => some (.bool false, rest)
    | '"' :: rest => (parseStr fuel rest).map (fun p => (.str p.1, p.2))
    | '\x7b' :: rest =>
      match skipWs rest with
      | '\x7d' :: rest2 => some (.obj [], rest2)
      | _ => (parseMembers fuel rest).map (fun p => (.obj p.1, p.2))
    | '[' :: rest =>
      match skipWs rest with
      | ']' :: rest2 => some (.arr [], rest2)
      | _ => (parseElems fuel rest).map (fun p => (.arr p.1, p.2))
    | l2 => (parseJsonNumber l2).map (fun p => (.num p.1, p.2))

/-- Array elements after `[` (non-empty case). -/
def parseElems : Nat → List Char → Option (List Json × List Char)
  | 0, _ => none
  | Nat.succ fuel, l =>
    match parseVal fuel l with
    | none => none
    | some (v, rest) =>
      match skipWs rest with
      | ',' :: rest2 => (parseElems fuel rest2).map (fun p => (v :: p.1, p.2))
      | ']' :: rest2 => some ([v], rest2)
      | _ => none

/-- Object members after `{` (non-empty case). -/
def parseMembers : Nat → List Char → Option (List (String × Json) × List Char)
  | 0, _ => none
  | Nat.succ fuel, l =>
    match skipWs l with
    | '"' :: rest =>
      match parseStr fuel rest with
      | none => none
      | some (key, rest2) =>
        match skipWs rest2 with
        | ':' :: rest3 =>
          match parseVal fuel rest3 with
          | none => none
          | some (v, rest4) =>
            match skipWs rest4 with
            | ',' :: rest5 =>
              (parseMembers fuel rest5).map (fun p => ((key, v) :: p.1, p.2))
            | '\x7d' :: rest5 => some ([(key, v)], rest5)
            | _ => none
        | _ => none
    | _ => none

end

/-- `JSON.parse`: one value, nothing but whitespace after it. -/
def jsonParse (s : String) : Option Json :=
  match parseVal (2 * s.length + 2) s.data with
  | none => none
  | some (v, rest) => if (skipWs rest).isEmpty then some v else none

/-- The `action` enum of the response schema. -/
inductive ActionTag
  | log_trade
  | summarize
  | unknown
deriving DecidableEq, Repr

/-- The fully-typed `trade` object of the response schema. -/
structure TradePayload where
  date : String
  transactionType : Side
  symbol : String
  quantity : ℚ
  amountPerUnit : ℚ
  totalAmount : ℚ
  tradingFees : ℚ
  investmentAccount : String
deriving DecidableEq, Repr

/-- The `summary` object of the response schema (optional nullable
fields, absence and `null` collapsed). -/
structure SummaryPayload where
  symbol : Option String
  startDate : Option String
  endDate : Option String
deriving DecidableEq, Repr

/-- `parsed.data`: the validated resolver output.  `trade`/`summary`
collapse `undefined` and `null` to `none` (every consumer tests them for
JS truthiness only). -/
structure Resolved where
  action : ActionTag
  trade : Option TradePayload
  summary : Option SummaryPayload
deriving DecidableEq, Repr

/-- The collapsed `unknown` result. -/
def unknownResolved : Resolved :=
  { action := .unknown, trade := none, summary := none }

/-- Object field lookup (later duplicate keys win, as in a JS object
built left to right). -/
def getField (fields : List (String × Json)) (k : String) : Option Json :=
  ((fields.reverse).find? (fun p => p.1 = k)).map (fun p => p.2)

/-- `z.string()`. -/
def asString : Json → Option String
  | .str s => some s
  | _ => none

/-- `z.number()`. -/
def asNumber : Json → Option ℚ
  | .num q => some q
  | _ => none

/-- `z.enum(["buy", "sell"])`. -/
def asSide (j : Json) : Option Side :=
  match j with
  | .str s => if s = "buy" then some .buy
      else if s = "sell" then some .sell else none
  | _ => none

/-- `z.enum(["log_trade", "summarize", "unknown"])`. -/
def asActionTag (j : Json) : Option ActionTag :=
  match j with
  | .str s => if s = "log_trade" then some .log_trade
      else if s = "summarize" then some .summarize
      else if s = "unknown" then some .unknown else none
  | _ => none

/-- The strict `trade` object shape. -/
def validTradeObj (fields : List (String × Json)) : Option TradePayload :=
  match getField fields "date" with
  | none => none
  | some jd =>
    match asString jd, (getField fields "transactionType").bind asSide,
      (getField fields "symbol").bind asString,
      (getField fields "quantity").bind asNumber,
      (getField fields "amountPerUnit").bind asNumber with
    | some date, some side, some symbol, some qty, some apu =>
      match (getField fields "totalAmount").bind asNumber,
        (getField fields "tradingFees").bind asNumber,
        (getField fields "investmentAccount").bind asString with
      | some tot, some fees, some acct =>
        some { date := date, transactionType := side, symbol := symbol,
               quantity := qty, amountPerUnit := apu, totalAmount := tot,
               tradingFees := fees, investmentAccount := acct }
      | _, _, _ => none
    | _, _, _, _, _ => none

/-- `z.string().nullable().optional()`: absent and `null` are accepted
(collapsed to `none`); a string is accepted; anything else fails. -/
def optStringField : Option Json → Option (Option String)
  | none => some none
  | some .null => some none
  | some (.str s) => some (some s)
  | some _ => none

/-- The `summary` object shape. -/
def validSummaryObj (fields : List (String × Json)) : Option SummaryPayload :=
  match optStringField (getField fields "symbol"),
    optStringField (getField fields "startDate"),
    optStringField (getField fields "endDate") with
  | some a, some b, some c =>
    some { symbol := a, startDate := b, endDate := c }
  | _, _, _ => none

/-- The `trade` key: optional, nullable, else the strict object shape. -/
def validateTradeField (fields : List (String × Json)) :
    Option (Option TradePayload) :=
  match getField fields "trade" with
  | none => some none
  | some .null => some none
  | some (.obj tf) =>
    match validTradeObj tf with
    | some t => some (some t)
    | none => none
  | some _ => none

/-- The `summary` key: optional, nullable, else the summary shape. -/
def validateSummaryField (fields : List (String × Json)) :
    Option (Option SummaryPayload) :=
  match getField fields "summary" with
  | none => some none
  | some .null => some none
  | some (.obj sf) =>
    match validSummaryObj sf with
    | some s => some (some s)
    | none => none
  | some _ => none

/-- `responseSchema.safeParse`: the payload must be an object whose
`action` is one of the three tags, with `trade`/`summary` validating as
above; unknown keys are stripped. -/
def validateResponse : Json → Option Resolved
  | .obj fields =>
    match (getField fields "action").bind asActionTag with
    | none => none
    | some tag =>
      match validateTradeField fields, validateSummaryField fields with
      | some t, some s => some { action := tag, trade := t, summary := s }
      | _, _ => none
  | _ => none

/-- The `payload` local of `interpretMessage`: `{}` when extraction or
parsing fails. -/
def payloadOf (response : String) : Json :=
  match extractJson response with
  | none => .obj []
  | some t => (jsonParse t).getD (.obj [])

/-- The pure tail of `interpretMessage`: extract, parse, validate,
collapse validation failure to `unknown`. -/
def resolveResponse (response : String) : Resolved :=
  match validateResponse (payloadOf response) with
  | none => unknownResolved
  | some r => r

/-- JS falsiness of the `OPENAI_API_KEY` environment value. -/
def keyFalsy : Option String → Bool
  | none => true
  | some s => s == ""

/-- `interpretMessage`, with the completion round-trip an environment
parameter: throws only on a missing key or a completion-transport
error. -/
def interpretMessage (apiKey : Option String)
    (completion : Except String String) : Except String Resolved :=
  if keyFalsy apiKey then .error "Missing OPENAI_API_KEY"
  else
    match completion with
    | .error e => .error e
    | .ok response => .ok (resolveResponse response)

/-- C8: the intent resolver never throws on malformed completion
content — extraction or parse failure yields the empty-object payload,
and any schema-validation failure collapses the result to the `unknown`
action; `interpretMessage` propagates an error exactly when the
completion credential is missing or the completion call itself fails. -/
theorem C8_interpret_spec (apiKey : Option String)
    (completion : Except String String) (response : String) :
    (extractJson response = none → payloadOf response = .obj []) ∧
    (∀ t, extractJson response = some t → jsonParse t = none →
      payloadOf response = .obj []) ∧
    (validateResponse (payloadOf response) = none →
      resolveResponse response = unknownResolved) ∧
    (∀ r, validateResponse (payloadOf response) = some r →
      resolveResponse response = r) ∧
    ((∃ e, interpretMessage apiKey completion = .error e) ↔
      (keyFalsy apiKey = true ∨ ∃ e, completion = .error e)) ∧
    (∀ resp, completion = .ok resp → keyFalsy apiKey = false →
      interpretMessage apiKey completion = .ok (resolveResponse resp)) := by
  refine ⟨?_, ?_, ?_, ?_, ?_, ?_⟩
  · intro h
    unfold payloadOf
    rw [h]
  · intro t h1 h2
    unfold payloadOf
    rw [h1]
    show (jsonParse t).getD (Json.obj []) = _
    rw [h2]
    rfl
  · intro h
    unfold resolveResponse
    rw [h]
  · intro r h
    unfold resolveResponse
    rw [h]
  · constructor
    · intro ⟨e, he⟩
      unfold interpretMessage at he
      by_cases hk : keyFalsy apiKey = true
      · exact Or.inl hk
      · refine Or.inr ?_
        simp only [hk, Bool.false_eq_true, if_false] at he
        cases completion with
        | error e2 => exact ⟨e2, rfl⟩
        | ok resp => simp at he
    · intro h
      unfold interpretMessage
      rcases h with hk | ⟨e, he⟩
      · exact ⟨"Missing OPENAI_API_KEY", by simp [hk]⟩
      · by_cases hk : keyFalsy apiKey = true
        · exact ⟨"Missing OPENAI_API_KEY", by simp [hk]⟩
        · exact ⟨e, by simp [hk, he]⟩
  · intro resp h hk
    unfold interpretMessage
    simp [hk, h]

/-- C8 (witness): a reply with no JSON resolves through the empty
payload to `unknown`; a reply with a valid `summarize` JSON resolves to
it; a raw-text reply with an invalid action collapses to `unknown`; a
missing key propagates an error. -/
theorem C8_interpret_witness :
    payloadOf "no json at all" = .obj [] ∧
    resolveResponse "Sure! \x7b\"action\":\"summarize\"\x7d" =
      { action := .summarize, trade := none, summary := none } ∧
    resolveResponse "\x7b\"action\":\"buy stuff\"\x7d" = unknownResolved ∧
    (∃ e, interpretMessage none (.ok "x") = .error e) := by
  refine ⟨?_, ?_, ?_, ?_⟩
  · exact (C8_interpret_spec none (.ok "x") "no json at all").1 rfl
  · exact (C8_interpret_spec none (.ok "x")
      "Sure! \x7b\"action\":\"summarize\"\x7d").2.2.2.1
      { action := .summarize, trade := none, summary := none } rfl
  · exact (C8_interpret_spec none (.ok "x")
      "\x7b\"action\":\"buy stuff\"\x7d").2.2.1 rfl
  · exact (C8_interpret_spec none (.ok "x") "x").2.2.2.2.1.mpr
      (Or.inl rfl)

/-! ## The reply composer's tool tracking (C9)

`generateReply` (`src/unnamed/part_001` lines 204–263, serverless copy
`src/api/chat.ts` lines 416–462): the search heuristic, the Linkup call
outcome, and the per-reply `ToolUsage` value.
-/

/-- The search-trigger keyword heuristic. -/
def shouldUseWebSearch (message : String) : Bool :=
  let text := toLowerStr message
  containsSub text "price" || containsSub text "quote" ||
    containsSub text "stock price" || containsSub text "current price" ||
    containsSub text "market price"

/-- One Linkup search result. -/
structure SearchResult where
  name : Option String
  url : Option String
  content : Option String
deriving DecidableEq, Repr

/-- The outcome of the search transport: a thrown fetch, or a response
with its `ok` flag and optional result list. -/
inductive TransportResult
  | throwErr
  | resp (ok : Bool) (results : Option (List SearchResult))
deriving DecidableEq, Repr

/-- The outcome of `fetchLinkupSearch` as observed by `generateReply`
(a thrown fetch is caught — inside `fetchLinkupSearch` in the serverless
copy, around it in the server copy — and lands in the same `error`
status). -/
inductive LinkupOutcome
  | not_configured
  | errorOut
  | okOut (results : Option (List SearchResult))
deriving DecidableEq, Repr

/-- `process.env.LINKUP_API_KEY?.trim()` falsiness. -/
def linkupKeyBlank : Option String → Bool
  | none => true
  | some s => jsTrim s == ""

/-- `fetchLinkupSearch`. -/
def fetchLinkupSearch (key : Option String) (t : TransportResult) :
    LinkupOutcome :=
  if linkupKeyBlank key then .not_configured
  else
    match t with
    | .throwErr => .errorOut
    | .resp false _ => .errorOut
    | .resp true results => .okOut results

/-- The per-reply tool status. -/
inductive ToolStatus
  | used
  | attempted
  | not_configured
  | error
  | skipped
deriving DecidableEq, Repr

/-- `ToolUsage` (one per reply). -/
structure ToolUsage where
  status : ToolStatus
  results : Nat
deriving DecidableEq, Repr

/-- The default (`skipped`) tool usage. -/
def defaultToolUsage : ToolUsage := { status := .skipped, results := 0 }

/-- The `tools` value `generateReply` attaches to its reply. -/
def computeToolUsage (message : String) (key : Option String)
    (t : TransportResult) : ToolUsage :=
  if shouldUseWebSearch message then
    match fetchLinkupSearch key t with
    | .not_configured => { status := .not_configured, results := 0 }
    | .errorOut => { status := .error, results := 0 }
    | .okOut results =>
      let rs := results.getD []
      { status := if rs.length ≠ 0 then .used else .attempted,
        results := rs.length }
  else defaultToolUsage

/-- C9: when the search heuristic fires, the reply's `ToolUsage` is
`not_configured` on a missing credential, `error` on a thrown transport
or non-success response, `attempted` on an empty result list, and `used`
with the result count on non-empty results; without the heuristic it is
the default `skipped`; and `"current price of AAPL"` with no credential
yields `not_configured` with count `0`. -/
theorem C9_toolusage_spec (message : String) (key : Option String)
    (t : TransportResult) :
    (shouldUseWebSearch message = true → linkupKeyBlank key = true →
      computeToolUsage message key t =
        { status := .not_configured, results := 0 }) ∧
    (shouldUseWebSearch message = true → linkupKeyBlank key = false →
      (t = .throwErr ∨ ∃ r, t = .resp false r) →
      computeToolUsage message key t = { status := .error, results := 0 }) ∧
    (shouldUseWebSearch message = true → linkupKeyBlank key = false →
      ∀ results, t = .resp true results → (results.getD []).length = 0 →
      computeToolUsage message key t =
        { status := .attempted, results := 0 }) ∧
    (shouldUseWebSearch message = true → linkupKeyBlank key = false →
      ∀ results, t = .resp true results → (results.getD []).length ≠ 0 →
      computeToolUsage message key t =
        { status := .used, results := (results.getD []).length }) ∧
    (shouldUseWebSearch message = false →
      computeToolUsage message key t = defaultToolUsage) ∧
    computeToolUsage "current price of AAPL" none t =
      { status := .not_configured, results := 0 } := by
  refine ⟨?_, ?_, ?_, ?_, ?_, ?_⟩
  · intro hm hk
    unfold computeToolUsage fetchLinkupSearch
    simp [hm, hk]
  · intro hm hk ht
    unfold computeToolUsage fetchLinkupSearch
    rcases ht with rfl | ⟨r, rfl⟩ <;> simp [hm, hk]
  · intro hm hk results ht hlen
    subst ht
    unfold computeToolUsage fetchLinkupSearch
    simp [hm, hk, hlen]
  · intro hm hk results ht hlen
    subst ht
    unfold computeToolUsage fetchLinkupSearch
    simp [hm, hk, hlen]
  · intro hm
    unfold computeToolUsage
    simp [hm]
  · unfold computeToolUsage fetchLinkupSearch
    rw [show shouldUseWebSearch "current price of AAPL" = true from rfl]
    rfl

/-- C9 (witness): the spec applied at the scenario message and at an
erroring transport. -/
theorem C9_toolusage_witness :
    computeToolUsage "current price of AAPL" none TransportResult.throwErr =
      { status := .not_configured, results := 0 } ∧
    computeToolUsage "what is the stock price of TSLA" (some "key123")
      (.resp false none) = { status := .error, results := 0 } ∧
    computeToolUsage "hello there" (some "key123") (.resp true none) =
      defaultToolUsage :=
  ⟨(C9_toolusage_spec "current price of AAPL" none .throwErr).1 rfl rfl,
   (C9_toolusage_spec "what is the stock price of TSLA" (some "key123")
      (.resp false none)).2.1 rfl rfl (Or.inr ⟨none, rfl⟩),
   (C9_toolusage_spec "hello there" (some "key123") (.resp true none)).2.2.2.2.1
      rfl⟩

/-! ## The conversation orchestrators (C3)

The Express handler `app.post("/api/chat")` of `src/server/src/index.ts`
(lines 300–425) and the serverless `handler` of `src/api/chat.ts` (lines
542–604).  Every external round-trip is an environment field recording
its outcome; the handlers below are the exact control flow of the
sources, returning the HTTP status, the reply text, and the chat history
after the turn.
-/

/-- A chat history entry. -/
inductive ChatRole
  | user
  | assistant
deriving DecidableEq, Repr

/-- `ChatMessage`. -/
structure ChatMessage where
  role : ChatRole
  content : String
deriving DecidableEq, Repr

/-- `MAX_HISTORY`. -/
def MAX_HISTORY : Nat := 20

/-- `pushHistory`: append, then evict from the front beyond the cap. -/
def pushHistory (h : List ChatMessage) (e : ChatMessage) :
    List ChatMessage :=
  let l := h ++ [e]
  if MAX_HISTORY < l.length then l.drop (l.length - MAX_HISTORY) else l

/-- The user-then-assistant double append of every recording path. -/
def push2 (h : List ChatMessage) (msg reply : String) : List ChatMessage :=
  pushHistory (pushHistory h { role := .user, content := msg })
    { role := .assistant, content := reply }

/-- `isLlmAuthError` (`src/server/src/index.ts` lines 140–151), on the
error's message string. -/
def isLlmAuthError (message : String) : Bool :=
  containsSub message "Missing OPENAI_API_KEY" ||
    containsSub message "Incorrect API key" ||
    containsSub message "invalid_api_key" ||
    containsSub message "API key expired" ||
    containsSub message "API_KEY_INVALID"

/-- The trade committed by the manual fallback (built with non-null
assertions once `getMissingManualFields` is empty; `??` fallbacks for
`totalAmount` and `tradingFees`). -/
def manualTradeOf (f : ManualFields) : ManualTrade :=
  { transactionType := f.transactionType.getD .buy
    symbol := f.symbol.getD ""
    quantity := f.quantity.getD 0
    amountPerUnit := f.amountPerUnit.getD 0
    totalAmount := f.totalAmount.getD
      ((f.quantity.getD 0) * (f.amountPerUnit.getD 0))
    tradingFees := f.tradingFees.getD 0
    investmentAccount := f.investmentAccount.getD ""
    date := f.date.getD "" }

/-- `action.summary ?? {}`. -/
def queryOf : Option SummaryPayload → SummaryQuery
  | none => { symbol := none, startDate := none, endDate := none }
  | some p => { symbol := p.symbol, startDate := p.startDate,
                endDate := p.endDate }

/-- A handler run: an HTTP response (status, reply body, history after
the turn) or an unhandled rejection escaping the route. -/
inductive HandlerOut
  | responded (status : Nat) (reply : String) (hist : List ChatMessage)
  | crashed (hist : List ChatMessage)
deriving DecidableEq, Repr

/-- The history a run left behind. -/
def HandlerOut.histOf : HandlerOut → List ChatMessage
  | .responded _ _ h => h
  | .crashed h => h

/-- The outcomes of the server handler's external calls. -/
structure ServerEnv where
  interpret : Except String Resolved
  appendRes : Except String Unit
  readRes : Except String (List RowT)
  reply1 : Except String String
  reply2 : Except String String
  dateParse : String → Option Int

/-- The top-level `catch` of the server handler (lines 380–424): an
auth-style error replays the manual fallback (an append failure there is
uncaught); any other error generates a recovery reply, recording the
turn only when that succeeds. -/
def serverOuterCatch (env : ServerEnv) (message : String)
    (hist : List ChatMessage) (e : String) : HandlerOut :=
  if isLlmAuthError e then
    let fields := parseManualTrade message
    let missing := getMissingManualFields fields
    if missing.isEmpty then
      match env.appendRes with
      | .error _ => .crashed hist
      | .ok _ =>
        let reply := manualTradeConfirmation (manualTradeOf fields)
        .responded 200 reply (push2 hist message reply)
    else .responded 503 (manualTradePrompt missing) hist
  else
    match env.reply2 with
    | .ok reply => .responded 500 reply (push2 hist message reply)
    | .error _ => .responded 500 e hist

/-- The shared tail of the three main paths: `generateReply`, record the
turn, respond 200 (a throw goes to the top-level catch). -/
def serverReplyStep (env : ServerEnv) (message : String)
    (hist : List ChatMessage) : HandlerOut :=
  match env.reply1 with
  | .error e => serverOuterCatch env message hist e
  | .ok reply => .responded 200 reply (push2 hist message reply)

/-- `app.post("/api/chat")` (`src/server/src/index.ts` lines 300–425). -/
def serverHandler (cfg : TradeLogConfig) (env : ServerEnv)
    (rawMessage : String) (hist : List ChatMessage) : HandlerOut :=
  let message := jsTrim rawMessage
  if message == "" then .responded 400 "Message is required." hist
  else
    match env.interpret with
    | .error e =>
      if isLlmAuthError e then
        let fields := parseManualTrade message
        let missing := getMissingManualFields fields
        if missing.isEmpty then
          match env.appendRes with
          | .error e2 => serverOuterCatch env message hist e2
          | .ok _ =>
            let reply := manualTradeConfirmation (manualTradeOf fields)
            .responded 200 reply (push2 hist message reply)
        else .responded 503 (manualTradePrompt missing) hist
      else serverOuterCatch env message hist e
    | .ok action =>
      if action.action = .log_trade ∧ action.trade ≠ none then
        match env.appendRes with
        | .error e => serverOuterCatch env message hist e
        | .ok _ => serverReplyStep env message hist
      else if action.action = .summarize then
        match env.readRes with
        | .error e => serverOuterCatch env message hist e
        | .ok rows =>
          let _summary := summarizeTrades cfg env.dateParse rows
            (queryOf action.summary)
          serverReplyStep env message hist
      else serverReplyStep env message hist

/-- The outcomes of the serverless handler's external calls. -/
structure ApiEnv where
  interpret : Except String Resolved
  appendRes : Except String Unit
  readRes : Except String (List RowT)
  replyRes : Except String String
  dateParse : String → Option Int

/-- The serverless `handler` (`src/api/chat.ts` lines 542–604): its
top-level catch responds 500 with the error text and records nothing. -/
def apiHandler (cfg : TradeLogConfig) (env : ApiEnv) (rawMessage : String)
    (hist : List ChatMessage) : HandlerOut :=
  let message := jsTrim rawMessage
  if message == "" then .responded 400 "Message is required." hist
  else
    match env.interpret with
    | .error e => .responded 500 e hist
    | .ok action =>
      if action.action = .log_trade ∧ action.trade ≠ none then
        match env.appendRes with
        | .error e => .responded 500 e hist
        | .ok _ =>
          match env.replyRes with
          | .error e => .responded 500 e hist
          | .ok reply => .responded 200 reply (push2 hist message reply)
      else if action.action = .summarize then
        match env.readRes with
        | .error e => .responded 500 e hist
        | .ok rows =>
          let _summary := summarizeTradesApi cfg env.dateParse rows
            (queryOf action.summary)
          match env.replyRes with
          | .error e => .responded 500 e hist
          | .ok reply => .responded 200 reply (push2 hist message reply)
      else
        match env.replyRes with
        | .error e => .responded 500 e hist
        | .ok reply => .responded 200 reply (push2 hist message reply)

/-- Did this call succeed? -/
def isOkB : Except String String → Bool
  | .ok _ => true
  | .error _ => false

/-- History discipline of the top-level catch. -/
theorem serverOuterCatch_hist (env : ServerEnv) (message : String)
    (hist : List ChatMessage) (e : String) :
    (∀ h, serverOuterCatch env message hist e = .crashed h → h = hist) ∧
    (∀ st r h, serverOuterCatch env message hist e = .responded st r h →
      h = (if st = 200 ∨ (st = 500 ∧ isOkB env.reply2 = true)
        then push2 hist message r else hist)) := by
  unfold serverOuterCatch
  by_cases hauth : isLlmAuthError e = true
  · simp only [hauth, if_true]
    by_cases hmiss :
        (getMissingManualFields (parseManualTrade message)).isEmpty = true
    · simp only [hmiss, if_true]
      cases henv : env.appendRes with
      | error e2 =>
        refine ⟨?_, ?_⟩
        · intro h hh
          cases hh
          rfl
        · intro st r h hh
          cases hh
      | ok u =>
        refine ⟨?_, ?_⟩
        · intro h hh
          cases hh
        · intro st r h hh
          cases hh
          simp
    · simp only [hmiss, Bool.false_eq_true, if_false]
      refine ⟨?_, ?_⟩
      · intro h hh
        cases hh
      · intro st r h hh
        cases hh
        simp
  · simp only [hauth, Bool.false_eq_true, if_false]
    cases henv : env.reply2 with
    | ok reply =>
      refine ⟨?_, ?_⟩
      · intro h hh
        cases hh
      · intro st r h hh
        cases hh
        simp [henv, isOkB]
    | error e2 =>
      refine ⟨?_, ?_⟩
      · intro h hh
        cases hh
      · intro st r h hh
        cases hh
        simp [henv, isOkB]

/-- History discipline of the shared reply step. -/
theorem serverReplyStep_hist (env : ServerEnv) (message : String)
    (hist : List ChatMessage) :
    (∀ h, serverReplyStep env message hist = .crashed h → h = hist) ∧
    (∀ st r h, serverReplyStep env message hist = .responded st r h →
      h = (if st = 200 ∨ (st = 500 ∧ isOkB env.reply2 = true)
        then push2 hist message r else hist)) := by
  unfold serverReplyStep
  cases henv : env.reply1 with
  | error e =>
    exact serverOuterCatch_hist env message hist e
  | ok reply =>
    refine ⟨?_, ?_⟩
    · intro h hh
      cases hh
    · intro st r h hh
      cases hh
      simp

/-- C3 (amended): in the server handler the chat history is appended
exactly once per turn — user message then reply — on every 200 path
(log trade, summarize, unknown, and both manual commits) and on the
top-level-catch path when its recovery reply generation succeeds; the
missing-fields manual prompt (503), a failing recovery reply, an
unhandled crash, and the empty-message 400 leave the history untouched.
The serverless handler appends exactly on its 200 paths and never in its
catch (500) path. -/
theorem C3_history_amended (cfg : TradeLogConfig) (env : ServerEnv)
    (aenv : ApiEnv) (msg : String) (hist : List ChatMessage) :
    (∀ h, serverHandler cfg env msg hist = .crashed h → h = hist) ∧
    (∀ st r h, serverHandler cfg env msg hist = .responded st r h →
      h = (if st = 200 ∨ (st = 500 ∧ isOkB env.reply2 = true)
        then push2 hist (jsTrim msg) r else hist)) ∧
    (∀ h, apiHandler cfg aenv msg hist = .crashed h → h = hist) ∧
    (∀ st r h, apiHandler cfg aenv msg hist = .responded st r h →
      h = (if st = 200 then push2 hist (jsTrim msg) r else hist)) := by
  have hserver :
      (∀ h, serverHandler cfg env msg hist = .crashed h → h = hist) ∧
      (∀ st r h, serverHandler cfg env msg hist = .responded st r h →
        h = (if st = 200 ∨ (st = 500 ∧ isOkB env.reply2 = true)
          then push2 hist (jsTrim msg) r else hist)) := by
    unfold serverHandler
    by_cases hm : (jsTrim msg == "") = true
    · simp only [hm, if_true]
      refine ⟨?_, ?_⟩
      · intro h hh; cases hh
      · intro st r h hh; cases hh; simp
    · simp only [hm, Bool.false_eq_true, if_false]
      cases henv : env.interpret with
      | error e =>
        by_cases hauth : isLlmAuthError e = true
        · simp only [hauth, if_true]
          by_cases hmiss :
              (getMissingManualFields (parseManualTrade (jsTrim msg))).isEmpty
                = true
          · simp only [hmiss, if_true]
            cases happ : env.appendRes with
            | error e2 => exact serverOuterCatch_hist env (jsTrim msg) hist e2
            | ok u =>
              refine ⟨?_, ?_⟩
              · intro h hh; cases hh
              · intro st r h hh; cases hh; simp
          · simp only [hmiss, Bool.false_eq_true, if_false]
            refine ⟨?_, ?_⟩
            · intro h hh; cases hh
            · intro st r h hh; cases hh; simp
        · simp only [hauth, Bool.false_eq_true, if_false]
          exact serverOuterCatch_hist env (jsTrim msg) hist e
      | ok action =>
        dsimp only
        by_cases hlog : action.action = .log_trade ∧ action.trade ≠ none
        · rw [if_pos hlog]
          cases happ : env.appendRes with
          | error e => exact serverOuterCatch_hist env (jsTrim msg) hist e
          | ok u => exact serverReplyStep_hist env (jsTrim msg) hist
        · rw [if_neg hlog]
          by_cases hsum : action.action = .summarize
          · rw [if_pos hsum]
            cases hread : env.readRes with
            | error e => exact serverOuterCatch_hist env (jsTrim msg) hist e
            | ok rows => exact serverReplyStep_hist env (jsTrim msg) hist
          · rw [if_neg hsum]
            exact serverReplyStep_hist env (jsTrim msg) hist
  have hapi :
      (∀ h, apiHandler cfg aenv msg hist = .crashed h → h = hist) ∧
      (∀ st r h, apiHandler cfg aenv msg hist = .responded st r h →
        h = (if st = 200 then push2 hist (jsTrim msg) r else hist)) := by
    unfold apiHandler
    by_cases hm : (jsTrim msg == "") = true
    · simp only [hm, if_true]
      refine ⟨?_, ?_⟩
      · intro h hh; cases hh
      · intro st r h hh; cases hh; simp
    · simp only [hm, Bool.false_eq_true, if_false]
      cases henv : aenv.interpret with
      | error e =>
        refine ⟨?_, ?_⟩
        · intro h hh; cases hh
        · intro st r h hh; cases hh; simp
      | ok action =>
        dsimp only
        by_cases hlog : action.action = .log_trade ∧ action.trade ≠ none
        · rw [if_pos hlog]
          cases happ : aenv.appendRes with
          | error e =>
            refine ⟨?_, ?_⟩
            · intro h hh; cases hh
            · intro st r h hh; cases hh; simp
          | ok u =>
            cases hrep : aenv.replyRes with
            | error e =>
              refine ⟨?_, ?_⟩
              · intro h hh; cases hh
              · intro st r h hh; cases hh; simp
            | ok reply =>
              refine ⟨?_, ?_⟩
              · intro h hh; cases hh
              · intro st r h hh; cases hh; simp
        · rw [if_neg hlog]
          by_cases hsum : action.action = .summarize
          · rw [if_pos hsum]
            cases hread : aenv.readRes with
            | error e =>
              refine ⟨?_, ?_⟩
              · intro h hh; cases hh
              · intro st r h hh; cases hh; simp
            | ok rows =>
              cases hrep : aenv.replyRes with
              | error e =>
                refine ⟨?_, ?_⟩
                · intro h hh; cases hh
                · intro st r h hh; cases hh; simp
              | ok reply =>
                refine ⟨?_, ?_⟩
                · intro h hh; cases hh
                · intro st r h hh; cases hh; simp
          · rw [if_neg hsum]
            cases hrep : aenv.replyRes with
            | error e =>
              refine ⟨?_, ?_⟩
              · intro h hh; cases hh
              · intro st r h hh; cases hh; simp
            | ok reply =>
              refine ⟨?_, ?_⟩
              · intro h hh; cases hh
              · intro st r h hh; cases hh; simp
  exact ⟨hserver.1, hserver.2, hapi.1, hapi.2⟩

/-- An environment whose completion call fails with the auth-style
error, against a message that is not a manual-format trade. -/
def envAuthMissing : ServerEnv :=
  { interpret := .error "Missing OPENAI_API_KEY", appendRes := .ok (),
    readRes := .ok [], reply1 := .ok "ok-reply", reply2 := .ok "ok-reply2",
    dateParse := fun _ => none }

/-- A serverless environment whose interpret call fails with a
non-auth error. -/
def apiEnvBoom : ApiEnv :=
  { interpret := .error "boom", appendRes := .ok (), readRes := .ok [],
    replyRes := .ok "ok-reply", dateParse := fun _ => none }

/-- C3 (counterexample): two turns that produce a reply without
appending to the chat history — the server's missing-fields manual
prompt (503) and the serverless handler's top-level catch (500) — so
history is not appended once per turn on every reply-producing path. -/
theorem C3_history_counterexample :
    serverHandler chatConfig envAuthMissing "hello" [] =
      .responded 503
        (manualTradePrompt (getMissingManualFields (parseManualTrade "hello")))
        [] ∧
    (getMissingManualFields (parseManualTrade "hello")).length = 8 ∧
    apiHandler chatConfig apiEnvBoom "hello" [] = .responded 500 "boom" [] :=
  ⟨rfl, rfl, rfl⟩

/-- C3 (witness): the amended discipline evaluated on the two
counterexample runs and on a successful unknown-path turn. -/
theorem C3_history_amended_witness :
    (([] : List ChatMessage) =
      (if (503 : Nat) = 200 ∨ ((503 : Nat) = 500 ∧
          isOkB envAuthMissing.reply2 = true)
        then push2 [] (jsTrim "hello")
          (manualTradePrompt (getMissingManualFields (parseManualTrade "hello")))
        else [])) ∧
    (([] : List ChatMessage) =
      (if (500 : Nat) = 200 then push2 [] (jsTrim "hello") "boom" else [])) :=
  ⟨(C3_history_amended chatConfig envAuthMissing apiEnvBoom "hello" []).2.1
      503
      (manualTradePrompt (getMissingManualFields (parseManualTrade "hello")))
      [] rfl,
   (C3_history_amended chatConfig envAuthMissing apiEnvBoom "hello" []).2.2.2
      500 "boom" [] rfl⟩
